import Mathlib

/-!
# PathTracer: a shallow embedding of `main.cpp`

The renderer is embedded twice.

The first embedding is over an arbitrary linearly ordered field `F` with a floor
function: C++ `float` arithmetic is read as exact arithmetic in `F` (no rounding,
no infinities, no NaN), and decimal literals such as `0.57735f` denote the decimal
fraction.  The C library functions `std::sqrt`, `std::atan2` and `std::asin` are
parameters of the definitions that call them; the theorems state which of their
properties they rely on.  The one value outside `F` is the initial
`smallest = 1.f / 0.f` of the nearest-hit scan, which is the top element of
`WithTop F`.

The second embedding, in the namespace `Binary32`, is over the type `B32` of the
IEEE 754 binary32 numbers, with every operation rounded to nearest, ties to even,
and with the infinities, the two zeros and NaN.  It serves the statements whose
truth depends on rounding, overflow or NaN.  `std::sqrt` is the correctly rounded
square root; `std::atan2`, `std::asin` and `std::pow` are parameters.

In both, the `glm` vector helpers are written out from their documented formulas.
Pointers into the object vector (`const Object *`) are indices into the object
list (`Option Nat`, `none` for `nullptr`).  The file-scope `skybox` array is a
function on indices, read only below `SKYBOX_W * SKYBOX_H`; a read outside the
array, or a conversion of a float to `size_t` or to `byte` whose truncated value
is outside the range of the target type, has no defined result and is `none`.
-/

namespace PathTracer

/-! ## Vectors (`glm::vec3`) -/

/-- Three scalar components, as in `glm::vec3`. -/
@[ext]
structure Vec3 (F : Type) where
  x : F
  y : F
  z : F
deriving DecidableEq

namespace Vec3

variable {F : Type} [LinearOrderedField F]

/-- Modelled from the spec: the `glm::vec3` operator `a + b` (the glm headers are not
among the sources), the componentwise sum. -/
def add (a b : Vec3 F) : Vec3 F := ⟨a.x + b.x, a.y + b.y, a.z + b.z⟩

/-- Modelled from the spec: the `glm::vec3` operator `a - b`, the componentwise
difference. -/
def sub (a b : Vec3 F) : Vec3 F := ⟨a.x - b.x, a.y - b.y, a.z - b.z⟩

/-- Modelled from the spec: the `glm::vec3` operator `-a`, the negated vector. -/
def neg (a : Vec3 F) : Vec3 F := ⟨-a.x, -a.y, -a.z⟩

/-- Modelled from the spec: the `glm::vec3` operators `v * s` and `s * v`, the product
of a vector and a scalar. -/
def scale (a : Vec3 F) (s : F) : Vec3 F := ⟨a.x * s, a.y * s, a.z * s⟩

/-- Modelled from the spec: the `glm::vec3` operator `v + s`, which adds the scalar `s`
to every channel. -/
def addScalar (a : Vec3 F) (s : F) : Vec3 F := ⟨a.x + s, a.y + s, a.z + s⟩

/-- Modelled from the spec: `glm::dot`, the scalar product. -/
def dot (a b : Vec3 F) : F := a.x * b.x + a.y * b.y + a.z * b.z

/-- Modelled from the spec: `glm::length`, the Euclidean norm `sqrt(dot(v, v))`. -/
def length (sqrt : F → F) (a : Vec3 F) : F := sqrt (dot a a)

/-- Modelled from the spec: `glm::normalize`, the vector scaled to unit length,
`v * (1 / sqrt(dot(v, v)))`. -/
def normalize (sqrt : F → F) (a : Vec3 F) : Vec3 F := scale a (1 / sqrt (dot a a))

/-- Modelled from the spec: `glm::reflect`, the standard reflection about the normal,
`I - N * dot(N, I) * 2`. -/
def reflect (i n : Vec3 F) : Vec3 F := sub i (scale (scale n (dot n i)) 2)

/-- Modelled from the spec: `glm::clamp` on one channel, `min(max(x, lo), hi)`. -/
def clampScalar (v lo hi : F) : F := min (max v lo) hi

/-- Modelled from the spec: `glm::clamp(v, lo, hi)`, the clamp of every channel. -/
def clamp (a : Vec3 F) (lo hi : F) : Vec3 F :=
  ⟨clampScalar a.x lo hi, clampScalar a.y lo hi, clampScalar a.z lo hi⟩

end Vec3

/-! ## Constants -/

section Constants

variable (F : Type) [LinearOrderedField F]

/-- Constant `SQRT3_INV = 0.57735f`. -/
def SQRT3_INV : F := 57735 / 100000

/-- Constant `SHADOW_DARKNESS = .2f`. -/
def SHADOW_DARKNESS : F := 2 / 10

/-- Vector `LIGHT_DIR = { SQRT3_INV, SQRT3_INV, SQRT3_INV }`. -/
def LIGHT_DIR : Vec3 F := ⟨SQRT3_INV F, SQRT3_INV F, SQRT3_INV F⟩

end Constants

/-- Constant `SKYBOX_W = 3000`. -/
def SKYBOX_W : Nat := 3000

/-- Constant `SKYBOX_H = 3000`. -/
def SKYBOX_H : Nat := 3000

/-- Constant `MAX_BOUNCE = 5` of `trace_at`. -/
def MAX_BOUNCE : Int := 5

/-! ## Scene objects -/

/-- The `type` tag of an `Object` together with the matching member of its union. -/
inductive Shape (F : Type) where
  | as_sphere (center : Vec3 F) (radius : F)
  | as_plane (p : Vec3 F) (n : Vec3 F)
deriving DecidableEq

/-- Record `struct Object`: geometry, colour and reflectance. -/
structure Object (F : Type) where
  shape : Shape F
  color : Vec3 F
  reflectance : F
deriving DecidableEq

/-- The three out-parameters `dist`, `point`, `normal` of a successful `hittest`. -/
structure Hit (F : Type) where
  dist : F
  point : Vec3 F
  normal : Vec3 F
deriving DecidableEq

/-- A non-null result of `hittest_all_objects`: the object found (by index and
value) and the out-parameters `hitpoint`, `hitnormal`. -/
structure Found (F : Type) where
  idx : Nat
  obj : Object F
  hitpoint : Vec3 F
  hitnormal : Vec3 F
deriving DecidableEq

section Core

variable {F : Type} [LinearOrderedField F]

/-! ## Intersection -/

/-- Function `hittest`: `none` for `return false`, `some` of the out-parameters
for `return true`. -/
def hittest (sqrt : F → F) (o : Object F) (start dir : Vec3 F) : Option (Hit F) :=
  match o.shape with
  | Shape.as_sphere center radius =>
    let T := Vec3.sub center start
    let d := Vec3.dot dir T
    let disc := d * d - Vec3.dot T T + radius * radius
    if disc < 0 then none
    else
      let dist := d - sqrt disc
      if dist < 0 then none
      else
        let point := Vec3.add start (Vec3.scale dir dist)
        some ⟨dist, point, Vec3.normalize sqrt (Vec3.sub center point)⟩
  | Shape.as_plane p n =>
    let deno := Vec3.dot dir n
    if |deno| ≤ 1 / 100000 then none
    else
      let t := Vec3.dot (Vec3.sub p start) n / deno
      if t < 0 then none
      else
        let m := Vec3.scale dir t
        some ⟨Vec3.length sqrt m, Vec3.add start m, n⟩

/-- The body of the loop of `hittest_all_objects` at index `i`.  The accumulator
holds `smallest` and `found` with its out-parameters.  `smallest` starts at
`1.f / 0.f`, which is `⊤`; the test is `dist < smallest`. -/
def hittest_body (sqrt : F → F) (ignore : Option Nat) (start dir : Vec3 F)
    (o : Object F) (i : Nat) (acc : WithTop F × Option (Found F)) :
    WithTop F × Option (Found F) :=
  if ignore = some i then acc
  else
    match hittest sqrt o start dir with
    | none => acc
    | some h =>
      if (h.dist : WithTop F) < acc.1 then ((h.dist : WithTop F), some ⟨i, o, h.point, h.normal⟩)
      else acc

/-- The loop of `hittest_all_objects` over the objects from index `i` on. -/
def hittest_loop (sqrt : F → F) (ignore : Option Nat) (start dir : Vec3 F) :
    List (Object F) → Nat → WithTop F × Option (Found F) → WithTop F × Option (Found F)
  | [], _, acc => acc
  | o :: rest, i, acc =>
    hittest_loop sqrt ignore start dir rest (i + 1) (hittest_body sqrt ignore start dir o i acc)

/-- Function `hittest_all_objects`: the object found with `hitpoint` and
`hitnormal`, or `none` for `nullptr`. -/
def hittest_all_objects (sqrt : F → F) (objects : List (Object F)) (ignore : Option Nat)
    (start dir : Vec3 F) : Option (Found F) :=
  (hittest_loop sqrt ignore start dir objects 0 (⊤, none)).2

/-! ## Lighting -/

/-- Function `lighting_equation`; `std::pow(s, 15.f)` is the fifteenth power. -/
def lighting_equation (sqrt : F → F) (color dir n : Vec3 F) : Vec3 F :=
  let light_dir := LIGHT_DIR F
  let d := max (Vec3.dot light_dir n) 0
  let s := max (Vec3.dot (Vec3.normalize sqrt (Vec3.add dir light_dir)) n) 0
  Vec3.addScalar (Vec3.scale color d) (s ^ 15)

/-! ## Properties assumed of the library square root -/

/-- The property of `std::sqrt` that the theorems on distances rely on: on
non-negative arguments it returns the non-negative square root. -/
def IsSqrt (sqrt : F → F) : Prop := ∀ x, 0 ≤ x → 0 ≤ sqrt x ∧ sqrt x * sqrt x = x

/-! ## The scene of the program -/

/-- Function `generate_objects`: the five objects of the rendered scene. -/
def generate_objects (F : Type) [LinearOrderedField F] : List (Object F) :=
  [ ⟨Shape.as_plane ⟨0, 5, 0⟩ ⟨0, 1, 0⟩, ⟨0, 78 / 100, 3 / 10⟩, 2 / 10⟩,
    ⟨Shape.as_sphere ⟨3, -1, 6⟩ (15 / 10), ⟨9 / 10, 9 / 10, 3 / 10⟩, 5 / 10⟩,
    ⟨Shape.as_sphere ⟨0, 1, 5⟩ (15 / 10), ⟨39215 / 100000, 58431 / 100000, 92941 / 100000⟩,
      5 / 10⟩,
    ⟨Shape.as_sphere ⟨-10, 35 / 10, 20⟩ (15 / 10), ⟨9 / 10, 3 / 10, 9 / 10⟩, 5 / 10⟩,
    ⟨Shape.as_sphere ⟨-10, 8, 40⟩ 10, ⟨5 / 10, 5 / 10, 5 / 10⟩, 5 / 10⟩ ]

/-- A test scene: the wall `x = 4` of colour `c` and reflectance `ro`, a slanted
plane of reflectance `rq`, and a sphere of radius 2. -/
def mirror_scene (F : Type) [LinearOrderedField F] (c : Vec3 F) (ro rq : F) :
    List (Object F) :=
  [ ⟨Shape.as_plane ⟨4, -2, -4⟩ ⟨1, 0, 0⟩, c, ro⟩,
    ⟨Shape.as_plane ⟨-3, 4, 2⟩ ⟨2 / 3, -2 / 3, -1 / 3⟩, ⟨5 / 10, 5 / 10, 5 / 10⟩, rq⟩,
    ⟨Shape.as_sphere ⟨0, -6, 7⟩ 2, ⟨5 / 10, 5 / 10, 5 / 10⟩, 5 / 10⟩ ]

/-! ## Scenes that differ in reflectance only -/

/-- Two objects with the same geometry and colour (their reflectances are free). -/
def SameSurface (o o2 : Object F) : Prop := o2.shape = o.shape ∧ o2.color = o.color

/-- Two results of a scan that agree up to the reflectance of the object found. -/
def SameFound : Option (Found F) → Option (Found F) → Prop
  | none, none => True
  | some f, some f2 =>
    f2.idx = f.idx ∧ f2.hitpoint = f.hitpoint ∧ f2.hitnormal = f.hitnormal ∧
      SameSurface f.obj f2.obj
  | _, _ => False

/-- Two scan accumulators with the same `smallest` and results that agree up to the
reflectance of the object found. -/
def SameAcc (acc acc2 : WithTop F × Option (Found F)) : Prop :=
  acc2.1 = acc.1 ∧ SameFound acc.2 acc2.2

end Core

/-! ## Skybox -/

section Skybox

variable {F : Type} [LinearOrderedField F] [FloorRing F]

/-- One iteration of the loop of `load_skybox`: the texel made from the packed
32-bit value `p`.  `(p >> k) & 0xff` is `(p / 2 ^ k) % 256` with the rounded-down
quotient and the non-negative remainder. -/
def unpack_texel (p : Int) : Vec3 F :=
  let b : Int := (p / 2 ^ 24) % 256
  let g : Int := (p / 2 ^ 16) % 256
  let r : Int := (p / 2 ^ 8) % 256
  ⟨(r : F) / 255, (g : F) / 255, (b : F) / 255⟩

/-- Function `load_skybox`: `file` is `none` when `skybox.raw` cannot be opened
(`return false`), else the `int` buffer `pixels` after the read; the result is the
`skybox` array, whose entries outside the loop range keep their static
initialiser. -/
def load_skybox (file : Option (Nat → Int)) : Option (Nat → Vec3 F) :=
  match file with
  | none => none
  | some pixels =>
    some (fun i => if i < SKYBOX_W * SKYBOX_H then unpack_texel (pixels i) else ⟨0, 0, 0⟩)

/-- Conversion `static_cast<size_t>(v)` of a float: the value is truncated toward
zero; it is defined only when the truncated value fits a 64-bit `size_t`. -/
def to_size_t (v : F) : Option Nat :=
  if -1 < v ∧ v < 2 ^ 64 then some ⌊v⌋₊ else none

/-- Function `get_skybox`; the index `y * SKYBOX_W + x` is computed in `size_t`. -/
def get_skybox (atan2 : F → F → F) (asin : F → F) (skybox : Nat → Vec3 F)
    (dir : Vec3 F) : Option (Vec3 F) :=
  let two_pi : F := 628318 / 100000
  let pi : F := 314159 / 100000
  let u := 5 / 10 + atan2 dir.x dir.z / two_pi
  let v := 5 / 10 - asin dir.y / pi
  let sx : F := (SKYBOX_W : F) - 2
  let sy : F := (SKYBOX_H : F) - 2
  match to_size_t (u * sx + 5 / 10), to_size_t (v * sy + 5 / 10) with
  | some x, some y =>
    let i := (y * SKYBOX_W + x) % 2 ^ 64
    if i < SKYBOX_W * SKYBOX_H then some (skybox i) else none
  | _, _ => none

/-- The property of `std::atan2` that the skybox lookup relies on: its value lies
in `[-pi, pi]`, and `pi < 3.141593`. -/
def Atan2Bounded (atan2 : F → F → F) : Prop :=
  ∀ y x, |atan2 y x| ≤ 3141593 / 1000000

/-- The property of `std::asin` that the skybox lookup relies on: on `[-1, 1]` its
value lies in `[-pi/2, pi/2]`, and `pi < 3.141593`. -/
def AsinBounded (asin : F → F) : Prop :=
  ∀ y, -1 ≤ y → y ≤ 1 → |asin y| ≤ 3141593 / 2000000

/-! ## The recursive tracer -/

/-- Function `trace_at`.  The result is `none` only when a skybox read on the way
has no defined result.  `bounce_num + 1` is computed only below `MAX_BOUNCE`, so
the `int` counter cannot overflow. -/
def trace_at (sqrt : F → F) (atan2 : F → F → F) (asin : F → F) (skybox : Nat → Vec3 F)
    (objects : List (Object F)) (bounce_num : Int) (exclude : Option Nat)
    (start dir : Vec3 F) : Option (Vec3 F) :=
  if bounce_num ≥ MAX_BOUNCE then some ⟨1, 1, 1⟩
  else
    match hittest_all_objects sqrt objects exclude start dir with
    | none => get_skybox atan2 asin skybox dir
    | some found =>
      match hittest_all_objects sqrt objects (some found.idx) found.hitpoint
          (Vec3.neg (LIGHT_DIR F)) with
      | some _ => some (Vec3.scale found.obj.color (SHADOW_DARKNESS F))
      | none =>
        match trace_at sqrt atan2 asin skybox objects (bounce_num + 1) (some found.idx)
            found.hitpoint (Vec3.reflect dir found.hitnormal) with
        | none => none
        | some bounce_color =>
          let b := found.obj.reflectance
          let a := 1 - b
          let my_color := lighting_equation sqrt found.obj.color dir found.hitnormal
          some (Vec3.clamp (Vec3.add (Vec3.scale my_color a) (Vec3.scale bounce_color b)) 0 1)
termination_by (MAX_BOUNCE - bounce_num).toNat
decreasing_by
  simp only [MAX_BOUNCE] at *
  omega

/-- The evaluation of `trace_at` with a budget of nested recursive calls: `fuel`
is the number of recursive calls still allowed below this one, and the outer
`none` means the budget ran out.  A completed evaluation yields the result of
`trace_at` and the number of recursive calls it made. -/
def trace_at_fuel (sqrt : F → F) (atan2 : F → F → F) (asin : F → F)
    (skybox : Nat → Vec3 F) (objects : List (Object F)) :
    Nat → Int → Option Nat → Vec3 F → Vec3 F → Option (Option (Vec3 F) × Nat)
  | fuel, bounce_num, exclude, start, dir =>
    if bounce_num ≥ MAX_BOUNCE then some (some ⟨1, 1, 1⟩, 0)
    else
      match hittest_all_objects sqrt objects exclude start dir with
      | none => some (get_skybox atan2 asin skybox dir, 0)
      | some found =>
        match hittest_all_objects sqrt objects (some found.idx) found.hitpoint
            (Vec3.neg (LIGHT_DIR F)) with
        | some _ => some (some (Vec3.scale found.obj.color (SHADOW_DARKNESS F)), 0)
        | none =>
          match fuel with
          | 0 => none
          | fuel + 1 =>
            match trace_at_fuel sqrt atan2 asin skybox objects fuel (bounce_num + 1)
                (some found.idx) found.hitpoint (Vec3.reflect dir found.hitnormal) with
            | none => none
            | some (none, calls) => some (none, calls + 1)
            | some (some bounce_color, calls) =>
              let b := found.obj.reflectance
              let a := 1 - b
              let my_color := lighting_equation sqrt found.obj.color dir found.hitnormal
              some (some (Vec3.clamp
                (Vec3.add (Vec3.scale my_color a) (Vec3.scale bounce_color b)) 0 1), calls + 1)

end Skybox

/-! ## Output pixels -/

section Output

/-- Record `struct Pixel`: three bytes, declared in the order `b`, `g`, `r`. -/
structure Pixel where
  b : Nat
  g : Nat
  r : Nat
deriving DecidableEq

/-- The bytes of a `Pixel` as `write_bmp` writes them: the members in their order
of declaration (the `static_assert` on the size excludes padding). -/
def Pixel.bytes (p : Pixel) : List Nat := [p.b, p.g, p.r]

end Output

/-! ## Binary32 arithmetic

The type `float` of the program as IEEE 754 binary32: 24 significant bits, exponents
of the last place from `-149` (subnormal numbers) to `104`, two zeros, two
infinities and NaN.  Every operation computes the exact rational result and rounds
it to nearest, ties to even, once per operation of the source (no fused
multiply-add, no wider intermediate precision).  All NaNs are one value. -/

/-- A binary32 value: NaN, an infinity with its sign, or a finite number with its
sign and its magnitude (`fin true 0` is the negative zero). -/
inductive B32 where
  | nan
  | inf (neg : Bool)
  | fin (neg : Bool) (mag : ℚ)
deriving DecidableEq

namespace B32

/-- The number of binary digits of `n`, found with at most `fuel` halvings. -/
def bitsAux : Nat → Nat → Nat
  | 0, _ => 0
  | fuel + 1, n => if n = 0 then 0 else bitsAux fuel (n / 2) + 1

/-- The number of binary digits of `n` (`0` for `n = 0`). -/
def bits (n : Nat) : Nat := bitsAux n n

/-- The integer `k` with `2 ^ k ≤ a < 2 ^ (k + 1)`, for a positive rational `a`: the
difference of the digit counts of numerator and denominator, or one less. -/
def ilog2 (a : ℚ) : Int :=
  let l : Int := (bits a.num.natAbs : Int) - (bits a.den : Int)
  if (2 : ℚ) ^ l ≤ a then l else l - 1

/-- The integer nearest to `x`, the even one of the two when `x` lies halfway. -/
def roundHalfEven (x : ℚ) : Int :=
  let f := ⌊x⌋
  let r := x - f
  if r < 1 / 2 then f
  else if 1 / 2 < r then f + 1
  else if f % 2 = 0 then f else f + 1

/-- The exponent of the last place of a binary32 number of magnitude `a > 0`:
24 significant bits, and never below `-149`. -/
def ulpExp (a : ℚ) : Int := max (ilog2 a - 23) (-149)

/-- The magnitude `a ≥ 0` rounded to a multiple of its last place. -/
def rndMag (a : ℚ) : ℚ := (roundHalfEven (a / 2 ^ ulpExp a) : ℚ) * 2 ^ ulpExp a

/-- Rounding to binary32 of the exact result with sign `neg` and magnitude `a ≥ 0`:
to nearest, ties to even; a rounded magnitude of `2 ^ 128` or more overflows to the
infinity, one that rounds to `0` keeps the sign. -/
def rnd (neg : Bool) (a : ℚ) : B32 :=
  if a = 0 then fin neg 0
  else if (2 : ℚ) ^ (128 : Int) ≤ rndMag a then inf neg else fin neg (rndMag a)

/-- The rational with sign `neg` and magnitude `a`. -/
def val (neg : Bool) (a : ℚ) : ℚ := if neg then -a else a

/-- A decimal or integer literal of type `float`: the rational `q` rounded to
binary32. -/
def ofRat (q : ℚ) : B32 := rnd (decide (q < 0)) |q|

/-- The rational value of a finite number (`0` for NaN and the infinities). -/
def toRat : B32 → ℚ
  | fin s a => val s a
  | _ => 0

/-- Unary minus: the sign is flipped. -/
def neg : B32 → B32
  | nan => nan
  | inf s => inf (!s)
  | fin s a => fin (!s) a

/-- Function `std::fabs`: the sign is cleared. -/
def abs : B32 → B32
  | nan => nan
  | inf _ => inf false
  | fin _ a => fin false a

/-- Addition.  An exact sum of zero is `+0`, unless both operands are negative
zeros. -/
def add : B32 → B32 → B32
  | nan, _ => nan
  | _, nan => nan
  | inf s, inf t => if s = t then inf s else nan
  | inf s, fin _ _ => inf s
  | fin _ _, inf t => inf t
  | fin s a, fin t b =>
    let v := val s a + val t b
    if v = 0 then fin (s && t) 0 else rnd (decide (v < 0)) |v|

/-- Subtraction, `x + (-y)`. -/
def sub (x y : B32) : B32 := add x (neg y)

/-- Multiplication; infinity times zero is NaN. -/
def mul : B32 → B32 → B32
  | nan, _ => nan
  | _, nan => nan
  | inf s, inf t => inf (xor s t)
  | inf s, fin t b => if b = 0 then nan else inf (xor s t)
  | fin s a, inf t => if a = 0 then nan else inf (xor s t)
  | fin s a, fin t b => rnd (xor s t) (a * b)

/-- Division; `0 / 0` and `inf / inf` are NaN, a non-zero number divided by zero is
an infinity. -/
def div : B32 → B32 → B32
  | nan, _ => nan
  | _, nan => nan
  | inf _, inf _ => nan
  | inf s, fin t _ => inf (xor s t)
  | fin s _, inf t => fin (xor s t) 0
  | fin s a, fin t b =>
    if b = 0 then (if a = 0 then nan else inf (xor s t))
    else rnd (xor s t) (a / b)

/-- The integer square root of `n`, bit by bit from bit `fuel - 1` down. -/
def isqrtAux (n : Nat) : Nat → Nat → Nat
  | 0, acc => acc
  | i + 1, acc =>
    let c := acc + 2 ^ i
    isqrtAux n i (if c * c ≤ n then c else acc)

/-- The integer square root of `n < 2 ^ 352`. -/
def isqrt (n : Nat) : Nat := isqrtAux n 176 0

/-- Function `std::sqrt`, correctly rounded: the root of `a * 4 ^ 101` is taken in
integers, and a root that is not exact is replaced by the midpoint to the next
integer before rounding, which rounds the same way as the exact root. -/
def sqrt : B32 → B32
  | nan => nan
  | inf s => if s then nan else inf false
  | fin s a =>
    if a = 0 then fin s 0
    else if s then nan
    else
      let n : Nat := ⌊a * 4 ^ 101⌋.toNat
      let r := isqrt n
      let q : ℚ := if ((r * r : Nat) : ℚ) = a * 4 ^ 101 then (r : ℚ) else (r : ℚ) + 1 / 2
      rnd false (q / 2 ^ 101)

/-- Comparison `x < y`; false when an operand is NaN, and `-0 < +0` is false. -/
def lt : B32 → B32 → Bool
  | nan, _ => false
  | _, nan => false
  | inf s, inf t => s && !t
  | inf s, fin _ _ => s
  | fin _ _, inf t => !t
  | fin s a, fin t b => decide (val s a < val t b)

/-- Comparison `x <= y`; false when an operand is NaN. -/
def le : B32 → B32 → Bool
  | nan, _ => false
  | _, nan => false
  | inf s, inf t => s || !t
  | inf s, fin _ _ => s
  | fin _ _, inf t => !t
  | fin s a, fin t b => decide (val s a ≤ val t b)

/-- Comparison `x == y`; false when an operand is NaN, and `-0 == +0` is true. -/
def eq : B32 → B32 → Bool
  | nan, _ => false
  | _, nan => false
  | inf s, inf t => s == t
  | inf _, fin _ _ => false
  | fin _ _, inf _ => false
  | fin s a, fin t b => decide (val s a = val t b)

/-- Function `std::max(a, b)`, which is `(a < b) ? b : a`. -/
def max (a b : B32) : B32 := if lt a b then b else a

/-- Conversion `static_cast<size_t>(v)`: the value is truncated toward zero; it is
defined only when the truncated value fits a 64-bit `size_t`. -/
def to_size_t : B32 → Option Nat
  | fin s a =>
    if s then (if a < 1 then some 0 else none)
    else if a < 2 ^ 64 then some ⌊a⌋.toNat else none
  | _ => none

/-- Conversion `static_cast<byte>(v)`: the value is truncated toward zero; it is
defined only when the truncated value fits a byte. -/
def to_byte : B32 → Option Nat
  | fin s a =>
    if s then (if a < 1 then some 0 else none)
    else if a < 256 then some ⌊a⌋.toNat else none
  | _ => none

end B32

/-! ## The program over binary32

The functions of `main.cpp` once more, with `float` as `B32`.  `std::atan2`,
`std::asin` and `std::pow` are parameters. -/

namespace Binary32

/-- Modelled from the spec: the `glm::vec3` operator `a + b`, componentwise. -/
def vadd (a b : Vec3 B32) : Vec3 B32 := ⟨B32.add a.x b.x, B32.add a.y b.y, B32.add a.z b.z⟩

/-- Modelled from the spec: the `glm::vec3` operator `a - b`, componentwise. -/
def vsub (a b : Vec3 B32) : Vec3 B32 := ⟨B32.sub a.x b.x, B32.sub a.y b.y, B32.sub a.z b.z⟩

/-- Modelled from the spec: the `glm::vec3` operator `-a`. -/
def vneg (a : Vec3 B32) : Vec3 B32 := ⟨B32.neg a.x, B32.neg a.y, B32.neg a.z⟩

/-- Modelled from the spec: the `glm::vec3` operators `v * s` and `s * v`. -/
def vscale (a : Vec3 B32) (s : B32) : Vec3 B32 := ⟨B32.mul a.x s, B32.mul a.y s, B32.mul a.z s⟩

/-- Modelled from the spec: the `glm::vec3` operator `v + s`, which adds the scalar
`s` to every channel. -/
def vaddScalar (a : Vec3 B32) (s : B32) : Vec3 B32 :=
  ⟨B32.add a.x s, B32.add a.y s, B32.add a.z s⟩

/-- Modelled from the spec: `glm::dot`, the three products summed from the left. -/
def dot (a b : Vec3 B32) : B32 :=
  B32.add (B32.add (B32.mul a.x b.x) (B32.mul a.y b.y)) (B32.mul a.z b.z)

/-- Modelled from the spec: `glm::length`, `sqrt(dot(v, v))`. -/
def length (a : Vec3 B32) : B32 := B32.sqrt (dot a a)

/-- Modelled from the spec: `glm::normalize`, `v * (1 / sqrt(dot(v, v)))`. -/
def normalize (a : Vec3 B32) : Vec3 B32 :=
  vscale a (B32.div (B32.ofRat 1) (B32.sqrt (dot a a)))

/-- Modelled from the spec: `glm::reflect`, `I - N * dot(N, I) * 2`. -/
def reflect (i n : Vec3 B32) : Vec3 B32 :=
  vsub i (vscale (vscale n (dot n i)) (B32.ofRat 2))

/-- Modelled from the spec: `glm::clamp` on one channel, `min(max(x, lo), hi)` with
`max(x, y) = (x < y) ? y : x` and `min(x, y) = (y < x) ? y : x`. -/
def clampScalar (v lo hi : B32) : B32 :=
  let m := if B32.lt v lo then lo else v
  if B32.lt hi m then hi else m

/-- Modelled from the spec: `glm::clamp(v, lo, hi)`, the clamp of every channel. -/
def clamp (a : Vec3 B32) (lo hi : B32) : Vec3 B32 :=
  ⟨clampScalar a.x lo hi, clampScalar a.y lo hi, clampScalar a.z lo hi⟩

/-- Constant `SQRT3_INV = 0.57735f`. -/
def SQRT3_INV : B32 := B32.ofRat (57735 / 100000)

/-- Constant `SHADOW_DARKNESS = .2f`. -/
def SHADOW_DARKNESS : B32 := B32.ofRat (2 / 10)

/-- Vector `LIGHT_DIR = { SQRT3_INV, SQRT3_INV, SQRT3_INV }`. -/
def LIGHT_DIR : Vec3 B32 := ⟨SQRT3_INV, SQRT3_INV, SQRT3_INV⟩

/-- Function `hittest`: `none` for `return false`, `some` of the out-parameters
for `return true`. -/
def hittest (o : Object B32) (start dir : Vec3 B32) : Option (Hit B32) :=
  match o.shape with
  | Shape.as_sphere center radius =>
    let T := vsub center start
    let d := dot dir T
    let disc := B32.add (B32.sub (B32.mul d d) (dot T T)) (B32.mul radius radius)
    if B32.lt disc (B32.ofRat 0) then none
    else
      let dist := B32.sub d (B32.sqrt disc)
      if B32.lt dist (B32.ofRat 0) then none
      else
        let point := vadd start (vscale dir dist)
        some ⟨dist, point, normalize (vsub center point)⟩
  | Shape.as_plane p n =>
    let deno := dot dir n
    if B32.le (B32.abs deno) (B32.ofRat (1 / 100000)) then none
    else
      let t := B32.div (dot (vsub p start) n) deno
      if B32.lt t (B32.ofRat 0) then none
      else
        let m := vscale dir t
        some ⟨length m, vadd start m, n⟩

/-- The body of the loop of `hittest_all_objects` at index `i`.  The accumulator
holds `smallest` and `found` with its out-parameters. -/
def hittest_body (ignore : Option Nat) (start dir : Vec3 B32) (o : Object B32) (i : Nat)
    (acc : B32 × Option (Found B32)) : B32 × Option (Found B32) :=
  if ignore = some i then acc
  else
    match hittest o start dir with
    | none => acc
    | some h =>
      if B32.lt h.dist acc.1 then (h.dist, some ⟨i, o, h.point, h.normal⟩)
      else acc

/-- The loop of `hittest_all_objects` over the objects from index `i` on. -/
def hittest_loop (ignore : Option Nat) (start dir : Vec3 B32) :
    List (Object B32) → Nat → B32 × Option (Found B32) → B32 × Option (Found B32)
  | [], _, acc => acc
  | o :: rest, i, acc =>
    hittest_loop ignore start dir rest (i + 1) (hittest_body ignore start dir o i acc)

/-- Function `hittest_all_objects`: the object found with `hitpoint` and
`hitnormal`, or `none` for `nullptr`.  `smallest` starts at `1.f / 0.f`. -/
def hittest_all_objects (objects : List (Object B32)) (ignore : Option Nat)
    (start dir : Vec3 B32) : Option (Found B32) :=
  (hittest_loop ignore start dir objects 0 (B32.div (B32.ofRat 1) (B32.ofRat 0), none)).2

/-- Function `lighting_equation`; `pow` is `std::pow`. -/
def lighting_equation (pow : B32 → B32 → B32) (color dir n : Vec3 B32) : Vec3 B32 :=
  let shininess := B32.ofRat 15
  let light_dir := LIGHT_DIR
  let d := B32.max (dot light_dir n) (B32.ofRat 0)
  let s := B32.max (dot (normalize (vadd dir light_dir)) n) (B32.ofRat 0)
  vaddScalar (vscale color d) (pow s shininess)

/-- Function `get_skybox`; the index `y * SKYBOX_W + x` is computed in `size_t`, and
a read outside the array has no defined result. -/
def get_skybox (atan2 : B32 → B32 → B32) (asin : B32 → B32) (skybox : Nat → Vec3 B32)
    (dir : Vec3 B32) : Option (Vec3 B32) :=
  let two_pi := B32.ofRat (628318 / 100000)
  let pi := B32.ofRat (314159 / 100000)
  let u := B32.add (B32.ofRat (5 / 10)) (B32.div (atan2 dir.x dir.z) two_pi)
  let v := B32.sub (B32.ofRat (5 / 10)) (B32.div (asin dir.y) pi)
  let sx := B32.sub (B32.ofRat ((SKYBOX_W : Nat) : ℚ)) (B32.ofRat 2)
  let sy := B32.sub (B32.ofRat ((SKYBOX_H : Nat) : ℚ)) (B32.ofRat 2)
  match B32.to_size_t (B32.add (B32.mul u sx) (B32.ofRat (5 / 10))),
      B32.to_size_t (B32.add (B32.mul v sy) (B32.ofRat (5 / 10))) with
  | some x, some y =>
    let i := (y * SKYBOX_W + x) % 2 ^ 64
    if i < SKYBOX_W * SKYBOX_H then some (skybox i) else none
  | _, _ => none

/-- Function `trace_at`.  The result is `none` when a conversion or a skybox read on
the way has no defined result. -/
def trace_at (pow : B32 → B32 → B32) (atan2 : B32 → B32 → B32) (asin : B32 → B32)
    (skybox : Nat → Vec3 B32) (objects : List (Object B32)) (bounce_num : Int)
    (exclude : Option Nat) (start dir : Vec3 B32) : Option (Vec3 B32) :=
  if bounce_num ≥ MAX_BOUNCE then some ⟨B32.ofRat 1, B32.ofRat 1, B32.ofRat 1⟩
  else
    match hittest_all_objects objects exclude start dir with
    | none => get_skybox atan2 asin skybox dir
    | some found =>
      match hittest_all_objects objects (some found.idx) found.hitpoint (vneg LIGHT_DIR) with
      | some _ => some (vscale found.obj.color SHADOW_DARKNESS)
      | none =>
        match trace_at pow atan2 asin skybox objects (bounce_num + 1) (some found.idx)
            found.hitpoint (reflect dir found.hitnormal) with
        | none => none
        | some bounce_color =>
          let b := found.obj.reflectance
          let a := B32.sub (B32.ofRat 1) b
          let my_color := lighting_equation pow found.obj.color dir found.hitnormal
          some (clamp (vadd (vscale my_color a) (vscale bounce_color b))
            (B32.ofRat 0) (B32.ofRat 1))
termination_by (MAX_BOUNCE - bounce_num).toNat
decreasing_by
  simp only [MAX_BOUNCE] at *
  omega

/-- Method `Pixel::from_color`; `none` when one of the three conversions has no
defined result. -/
def from_color (v : Vec3 B32) : Option Pixel :=
  match B32.to_byte (B32.add (B32.mul v.x (B32.ofRat 255)) (B32.ofRat (5 / 10))),
      B32.to_byte (B32.add (B32.mul v.y (B32.ofRat 255)) (B32.ofRat (5 / 10))),
      B32.to_byte (B32.add (B32.mul v.z (B32.ofRat 255)) (B32.ofRat (5 / 10))) with
  | some r, some g, some b => some ⟨b, g, r⟩
  | _, _, _ => none

end Binary32

namespace B32

/-- The finite values that the arithmetic produces: the magnitude is non-negative
and is its own rounding. -/
def valid : B32 → Bool
  | fin s a => decide (0 ≤ a) && decide (rnd s a = fin s a)
  | _ => true

end B32

/-! ## Evaluation over binary32 that records the singular operations

The same functions with a division that has no result for a zero divisor and a
square root that has no result for a negative argument.  The outer `none` of a
result means that such an operation was evaluated. -/

namespace Binary32

/-- Division, without a result when the divisor compares equal to zero. -/
def checked_div (a b : B32) : Option B32 :=
  if B32.eq b (B32.ofRat 0) then none else some (B32.div a b)

/-- Call `std::sqrt(x)`, without a result for a negative argument. -/
def checked_sqrt (x : B32) : Option B32 :=
  if B32.lt x (B32.ofRat 0) then none else some (B32.sqrt x)

/-- Function `length` with the partial square root. -/
def length_checked (a : Vec3 B32) : Option B32 := checked_sqrt (dot a a)

/-- Function `normalize` with the partial square root and division. -/
def normalize_checked (a : Vec3 B32) : Option (Vec3 B32) :=
  match checked_sqrt (dot a a) with
  | none => none
  | some s =>
    match checked_div (B32.ofRat 1) s with
    | none => none
    | some q => some (vscale a q)

/-- Function `hittest` with the partial operations. -/
def hittest_checked (o : Object B32) (start dir : Vec3 B32) : Option (Option (Hit B32)) :=
  match o.shape with
  | Shape.as_sphere center radius =>
    let T := vsub center start
    let d := dot dir T
    let disc := B32.add (B32.sub (B32.mul d d) (dot T T)) (B32.mul radius radius)
    if B32.lt disc (B32.ofRat 0) then some none
    else
      match checked_sqrt disc with
      | none => none
      | some s =>
        let dist := B32.sub d s
        if B32.lt dist (B32.ofRat 0) then some none
        else
          let point := vadd start (vscale dir dist)
          match normalize_checked (vsub center point) with
          | none => none
          | some normal => some (some ⟨dist, point, normal⟩)
  | Shape.as_plane p n =>
    let deno := dot dir n
    if B32.le (B32.abs deno) (B32.ofRat (1 / 100000)) then some none
    else
      match checked_div (dot (vsub p start) n) deno with
      | none => none
      | some t =>
        if B32.lt t (B32.ofRat 0) then some none
        else
          let m := vscale dir t
          match length_checked m with
          | none => none
          | some dist => some (some ⟨dist, vadd start m, n⟩)

/-- Function `lighting_equation` with the partial operations. -/
def lighting_equation_checked (pow : B32 → B32 → B32) (color dir n : Vec3 B32) :
    Option (Vec3 B32) :=
  let shininess := B32.ofRat 15
  let light_dir := LIGHT_DIR
  let d := B32.max (dot light_dir n) (B32.ofRat 0)
  match normalize_checked (vadd dir light_dir) with
  | none => none
  | some h =>
    let s := B32.max (dot h n) (B32.ofRat 0)
    some (vaddScalar (vscale color d) (pow s shininess))

end Binary32

/-! ## Named values and test inputs over binary32 -/

namespace Binary32

/-- The value `d = dot(dir, T)` that `hittest` computes for a sphere, with
`T = center - start`. -/
def sphere_d (center start dir : Vec3 B32) : B32 := dot dir (vsub center start)

/-- The value `disc = d*d - dot(T, T) + radius*radius` that `hittest` computes for a
sphere. -/
def sphere_disc (center : Vec3 B32) (radius : B32) (start dir : Vec3 B32) : B32 :=
  B32.add (B32.sub (B32.mul (sphere_d center start dir) (sphere_d center start dir))
    (dot (vsub center start) (vsub center start))) (B32.mul radius radius)

/-- The exact square of the distance between two points with finite coordinates. -/
def exact_dist_sq (p q : Vec3 B32) : ℚ :=
  (B32.toRat p.x - B32.toRat q.x) ^ 2 + (B32.toRat p.y - B32.toRat q.y) ^ 2
    + (B32.toRat p.z - B32.toRat q.z) ^ 2

/-- The exact value of `d*d - dot(T, T) + radius*radius` for finite arguments, without
any rounding. -/
def exact_disc (center : Vec3 B32) (radius : B32) (start dir : Vec3 B32) : ℚ :=
  let tx := B32.toRat center.x - B32.toRat start.x
  let ty := B32.toRat center.y - B32.toRat start.y
  let tz := B32.toRat center.z - B32.toRat start.z
  let d := B32.toRat dir.x * tx + B32.toRat dir.y * ty + B32.toRat dir.z * tz
  d * d - (tx * tx + ty * ty + tz * tz) + B32.toRat radius * B32.toRat radius

/-- The vector of the three `float` literals `x`, `y`, `z`. -/
def vec (x y z : ℚ) : Vec3 B32 := ⟨B32.ofRat x, B32.ofRat y, B32.ofRat z⟩

/-- A grey sphere of reflectance `0.5` with the centre `(cx, cy, cz)` and the radius
`r`, all `float` literals. -/
def grey_sphere (cx cy cz r : ℚ) : Object B32 :=
  ⟨Shape.as_sphere (vec cx cy cz) (B32.ofRat r), vec (5 / 10) (5 / 10) (5 / 10), B32.ofRat (5 / 10)⟩

/-- A grey plane of reflectance `0.5` through `(0, 1e20, 0)` with the normal
`(0, 1, 0)`. -/
def far_plane : Object B32 :=
  ⟨Shape.as_plane (vec 0 100000000000000000000 0) (vec 0 1 0), vec (5 / 10) (5 / 10) (5 / 10),
    B32.ofRat (5 / 10)⟩

end Binary32

/-! ## Scenes that differ in reflectance only -/

section Scan

variable {F : Type} [LinearOrderedField F]

theorem hittest_congr_shape (sqrt : F → F) (o o2 : Object F) (start dir : Vec3 F)
    (h : o2.shape = o.shape) : hittest sqrt o2 start dir = hittest sqrt o start dir := by
  unfold hittest
  rw [h]

theorem hittest_body_same (sqrt : F → F) (ignore : Option Nat) (start dir : Vec3 F)
    (o o2 : Object F) (i : Nat) (acc acc2 : WithTop F × Option (Found F))
    (ho : SameSurface o o2) (hacc : SameAcc acc acc2) :
    SameAcc (hittest_body sqrt ignore start dir o i acc)
      (hittest_body sqrt ignore start dir o2 i acc2) := by
  unfold hittest_body
  rw [hittest_congr_shape sqrt o o2 start dir ho.1]
  by_cases hi : ignore = some i
  · simpa [hi] using hacc
  · simp only [hi, if_false]
    cases hittest sqrt o start dir with
    | none => exact hacc
    | some h =>
      simp only [hacc.1]
      by_cases hlt : (h.dist : WithTop F) < acc.1
      · simp only [hlt, if_true]
        exact ⟨rfl, rfl, rfl, rfl, ho⟩
      · simp only [hlt, if_false]
        exact hacc

theorem hittest_loop_same (sqrt : F → F) (ignore : Option Nat) (start dir : Vec3 F)
    (objs objs2 : List (Object F)) (hobjs : List.Forall₂ SameSurface objs objs2)
    (i : Nat) (acc acc2 : WithTop F × Option (Found F)) (hacc : SameAcc acc acc2) :
    SameAcc (hittest_loop sqrt ignore start dir objs i acc)
      (hittest_loop sqrt ignore start dir objs2 i acc2) := by
  induction hobjs generalizing i acc acc2 with
  | nil => simpa [hittest_loop] using hacc
  | cons ho _ ih =>
    simp only [hittest_loop]
    exact ih (i + 1) _ _ (hittest_body_same sqrt ignore start dir _ _ i acc acc2 ho hacc)

/-- In a scene that differs in reflectances only, `hittest_all_objects` finds the
object of the same index, geometry and colour at the same point. -/
theorem hittest_all_objects_same_some (sqrt : F → F) (objs objs2 : List (Object F))
    (hobjs : List.Forall₂ SameSurface objs objs2) (ignore : Option Nat) (start dir : Vec3 F)
    (f : Found F) (hsome : hittest_all_objects sqrt objs ignore start dir = some f) :
    ∃ f2, hittest_all_objects sqrt objs2 ignore start dir = some f2 ∧ f2.idx = f.idx ∧
      f2.hitpoint = f.hitpoint ∧ f2.hitnormal = f.hitnormal ∧ SameSurface f.obj f2.obj := by
  unfold hittest_all_objects at hsome ⊢
  have hsame := (hittest_loop_same sqrt ignore start dir objs objs2 hobjs 0 (⊤, none)
    (⊤, none) ⟨rfl, trivial⟩).2
  rw [hsome] at hsame
  cases h2 : (hittest_loop sqrt ignore start dir objs2 0 (⊤, none)).2 with
  | none =>
    rw [h2] at hsame
    exact absurd hsame (by simp [SameFound])
  | some f2 =>
    rw [h2] at hsame
    exact ⟨f2, rfl, hsame⟩

end Scan

/-! ## Single-object intersection -/

section Intersection

variable {F : Type} [LinearOrderedField F]

/-- Every channel of a texel made by the loader is a byte divided by 255. -/
theorem unpack_texel_range (p : Int) :
    (0 ≤ (unpack_texel p : Vec3 F).x ∧ (unpack_texel p : Vec3 F).x ≤ 1) ∧
    (0 ≤ (unpack_texel p : Vec3 F).y ∧ (unpack_texel p : Vec3 F).y ≤ 1) ∧
    (0 ≤ (unpack_texel p : Vec3 F).z ∧ (unpack_texel p : Vec3 F).z ≤ 1) := by
  have hbyte : ∀ m : Int, 0 ≤ ((m % 256 : Int) : F) / 255 ∧ ((m % 256 : Int) : F) / 255 ≤ 1 := by
    intro m
    have h0 : (0 : Int) ≤ m % 256 := Int.emod_nonneg m (by norm_num)
    have h1 : m % 256 < 256 := Int.emod_lt_of_pos m (by norm_num)
    have h2 : m % 256 ≤ 255 := by omega
    have h0F : (0 : F) ≤ ((m % 256 : Int) : F) := by exact_mod_cast h0
    have h2F : ((m % 256 : Int) : F) ≤ 255 := by exact_mod_cast h2
    constructor
    · exact div_nonneg h0F (by norm_num)
    · rw [div_le_one (by norm_num)]
      exact h2F
  exact ⟨hbyte _, hbyte _, hbyte _⟩

/-- The plane branch of `hittest`, written out. -/
theorem hittest_plane_eq (sqrt : F → F) (p n color : Vec3 F) (reflectance : F)
    (origin dir : Vec3 F) :
    hittest sqrt ⟨Shape.as_plane p n, color, reflectance⟩ origin dir
      = if |Vec3.dot dir n| ≤ 1 / 100000 then none
        else if Vec3.dot (Vec3.sub p origin) n / Vec3.dot dir n < 0 then none
        else some ⟨Vec3.length sqrt
              (Vec3.scale dir (Vec3.dot (Vec3.sub p origin) n / Vec3.dot dir n)),
            Vec3.add origin
              (Vec3.scale dir (Vec3.dot (Vec3.sub p origin) n / Vec3.dot dir n)), n⟩ := by
  simp only [hittest]

end Intersection

/-! ## The skybox lookup -/

section SkyboxLookup

variable {F : Type} [LinearOrderedField F] [FloorRing F]

/-- A float strictly between `-1` and `2999` converts to a `size_t` of at most 2998. -/
theorem to_size_t_small (v : F) (hlo : -1 < v) (hhi : v < 2999) :
    ∃ k, to_size_t v = some k ∧ k ≤ 2998 := by
  refine ⟨⌊v⌋₊, ?_, ?_⟩
  · unfold to_size_t
    rw [if_pos ⟨hlo, lt_trans hhi (by norm_num)⟩]
  · have h : ⌊v⌋₊ < 2999 := by
      rw [Nat.floor_lt' (by norm_num)]
      exact_mod_cast hhi
    omega

/-- The texel coordinates computed by `get_skybox` for a unit direction are at most
2998, and the lookup returns the texel at `y * SKYBOX_W + x`. -/
theorem get_skybox_index (atan2 : F → F → F) (asin : F → F) (hatan2 : Atan2Bounded atan2)
    (hasin : AsinBounded asin) (skybox : Nat → Vec3 F) (dir : Vec3 F)
    (hunit : Vec3.dot dir dir = 1) :
    ∃ x y, x ≤ 2998 ∧ y ≤ 2998 ∧ y * SKYBOX_W + x < SKYBOX_W * SKYBOX_H ∧
      get_skybox atan2 asin skybox dir = some (skybox (y * SKYBOX_W + x)) := by
  have hy : -1 ≤ dir.y ∧ dir.y ≤ 1 := by
    unfold Vec3.dot at hunit
    constructor <;> nlinarith [mul_self_nonneg dir.x, mul_self_nonneg dir.z,
      mul_self_nonneg (dir.y - 1), mul_self_nonneg (dir.y + 1)]
  have ha := abs_le.mp (hatan2 dir.x dir.z)
  have hb := abs_le.mp (hasin dir.y hy.1 hy.2)
  have hW : ((SKYBOX_W : Nat) : F) = 3000 := by norm_num [SKYBOX_W]
  have hH : ((SKYBOX_H : Nat) : F) = 3000 := by norm_num [SKYBOX_H]
  obtain ⟨x, hx, hx1⟩ := to_size_t_small
    ((5 / 10 + atan2 dir.x dir.z / (628318 / 100000)) * ((SKYBOX_W : F) - 2) + 5 / 10)
    (by rw [hW]; linarith [ha.1]) (by rw [hW]; linarith [ha.2])
  obtain ⟨y, hy0, hy1⟩ := to_size_t_small
    ((5 / 10 - asin dir.y / (314159 / 100000)) * ((SKYBOX_H : F) - 2) + 5 / 10)
    (by rw [hH]; linarith [hb.2]) (by rw [hH]; linarith [hb.1])
  have hidx : y * SKYBOX_W + x < SKYBOX_W * SKYBOX_H := by
    simp only [SKYBOX_W, SKYBOX_H]
    omega
  refine ⟨x, y, hx1, hy1, hidx, ?_⟩
  simp only [get_skybox, hx, hy0]
  have hmod : (y * SKYBOX_W + x) % 2 ^ 64 = y * SKYBOX_W + x := by
    apply Nat.mod_eq_of_lt
    simp only [SKYBOX_W]
    omega
  rw [hmod, if_pos hidx]

/-- C10: for a unit direction and a skybox grid produced by `load_skybox`,
`get_skybox` (a function of the direction and the grid, given the library's
`atan2` and `asin`) returns a colour, and each of its three channels lies in
`[0, 1]`. -/
theorem get_skybox_channels (atan2 : F → F → F) (asin : F → F)
    (hatan2 : Atan2Bounded atan2) (hasin : AsinBounded asin) (pixels : Nat → Int)
    (skybox : Nat → Vec3 F) (hload : load_skybox (some pixels) = some skybox)
    (dir : Vec3 F) (hunit : Vec3.dot dir dir = 1) :
    ∃ c, get_skybox atan2 asin skybox dir = some c ∧
      (0 ≤ c.x ∧ c.x ≤ 1) ∧ (0 ≤ c.y ∧ c.y ≤ 1) ∧ (0 ≤ c.z ∧ c.z ≤ 1) := by
  obtain ⟨x, y, _, _, hidx, hget⟩ :=
    get_skybox_index atan2 asin hatan2 hasin skybox dir hunit
  refine ⟨_, hget, ?_⟩
  simp only [load_skybox, Option.some.injEq] at hload
  rw [← hload]
  simp only [hidx, if_true]
  exact unpack_texel_range _

end SkyboxLookup

/-! ## Depth guard and termination -/

section Tracer

variable {F : Type} [LinearOrderedField F] [FloorRing F]

/-- The shadow branch of `trace_at`. -/
theorem trace_at_of_shadow (sqrt : F → F) (atan2 : F → F → F) (asin : F → F)
    (skybox : Nat → Vec3 F) (objects : List (Object F)) (bounce_num : Int)
    (exclude : Option Nat) (start dir : Vec3 F) (found occluder : Found F)
    (hdepth : bounce_num < 5)
    (hhit : hittest_all_objects sqrt objects exclude start dir = some found)
    (hshadow : hittest_all_objects sqrt objects (some found.idx) found.hitpoint
      (Vec3.neg (LIGHT_DIR F)) = some occluder) :
    trace_at sqrt atan2 asin skybox objects bounce_num exclude start dir
      = some (Vec3.scale found.obj.color (SHADOW_DARKNESS F)) := by
  rw [trace_at]
  have hb : ¬ bounce_num ≥ MAX_BOUNCE := by simp only [MAX_BOUNCE]; omega
  simp only [hb, if_false, hhit, hshadow]

/-- C1: at every depth `bounce_num ≥ 5`, for every scene, skybox, excluded object
and ray, `trace_at` returns exactly the colour `(1, 1, 1)`. -/
theorem trace_at_depth_guard (sqrt : F → F) (atan2 : F → F → F) (asin : F → F)
    (skybox : Nat → Vec3 F) (objects : List (Object F)) (bounce_num : Int)
    (exclude : Option Nat) (start dir : Vec3 F) (hdepth : 5 ≤ bounce_num) :
    trace_at sqrt atan2 asin skybox objects bounce_num exclude start dir
      = some ⟨1, 1, 1⟩ := by
  rw [trace_at]
  simp [MAX_BOUNCE, hdepth]

/-- C2: `trace_at` is total, and for every scene, ray and integer starting depth
`bounce_num` its evaluation completes within a budget of `5 - bounce_num` nested
recursive calls (5 from depth 0, none from depth 5 on), yielding the result of
`trace_at` after at most that many recursive calls in all, whatever the
reflectances are. -/
theorem trace_at_terminates (sqrt : F → F) (atan2 : F → F → F) (asin : F → F)
    (skybox : Nat → Vec3 F) (objects : List (Object F)) (fuel : Nat) (bounce_num : Int)
    (exclude : Option Nat) (start dir : Vec3 F)
    (hfuel : (MAX_BOUNCE - bounce_num).toNat ≤ fuel) :
    ∃ calls, calls ≤ (MAX_BOUNCE - bounce_num).toNat ∧
      trace_at_fuel sqrt atan2 asin skybox objects fuel bounce_num exclude start dir
        = some (trace_at sqrt atan2 asin skybox objects bounce_num exclude start dir,
            calls) := by
  induction fuel generalizing bounce_num exclude start dir with
  | zero =>
    rw [trace_at_fuel, trace_at]
    by_cases hb : bounce_num ≥ MAX_BOUNCE
    · exact ⟨0, Nat.zero_le _, by simp [hb]⟩
    · exfalso
      simp only [MAX_BOUNCE] at hb hfuel
      omega
  | succ k ih =>
    rw [trace_at_fuel, trace_at]
    by_cases hb : bounce_num ≥ MAX_BOUNCE
    · exact ⟨0, Nat.zero_le _, by simp [hb]⟩
    · simp only [hb, if_false]
      cases hhit : hittest_all_objects sqrt objects exclude start dir with
      | none => exact ⟨0, Nat.zero_le _, rfl⟩
      | some found =>
        simp only []
        cases hsh : hittest_all_objects sqrt objects (some found.idx) found.hitpoint
            (Vec3.neg (LIGHT_DIR F)) with
        | some g => exact ⟨0, Nat.zero_le _, rfl⟩
        | none =>
          have hk : (MAX_BOUNCE - (bounce_num + 1)).toNat ≤ k := by
            simp only [MAX_BOUNCE] at hb hfuel ⊢
            omega
          obtain ⟨c, hc, hrec⟩ := ih (bounce_num + 1) (some found.idx) found.hitpoint
            (Vec3.reflect dir found.hitnormal) hk
          have hc1 : c + 1 ≤ (MAX_BOUNCE - bounce_num).toNat := by
            simp only [MAX_BOUNCE] at hb hc ⊢
            omega
          refine ⟨c + 1, hc1, ?_⟩
          simp only [hrec]
          cases trace_at sqrt atan2 asin skybox objects (bounce_num + 1) (some found.idx)
            found.hitpoint (Vec3.reflect dir found.hitnormal) <;> rfl

/-- C4: below the depth bound, when the nearest hit `found` has its shadow ray
(from the hit point, direction `-LIGHT_DIR`, `found` excluded) blocked by some
object, `trace_at` returns exactly `found.color * 0.2`; and it returns the same
colour in every scene `objects2` that differs from `objects` in reflectances only. -/
theorem trace_at_shadow (sqrt : F → F) (atan2 : F → F → F) (asin : F → F)
    (skybox : Nat → Vec3 F) (objects objects2 : List (Object F)) (bounce_num : Int)
    (exclude : Option Nat) (start dir : Vec3 F) (found occluder : Found F)
    (hsame : List.Forall₂ SameSurface objects objects2)
    (hdepth : bounce_num < 5)
    (hhit : hittest_all_objects sqrt objects exclude start dir = some found)
    (hshadow : hittest_all_objects sqrt objects (some found.idx) found.hitpoint
      (Vec3.neg (LIGHT_DIR F)) = some occluder) :
    trace_at sqrt atan2 asin skybox objects bounce_num exclude start dir
        = some (Vec3.scale found.obj.color (SHADOW_DARKNESS F)) ∧
      trace_at sqrt atan2 asin skybox objects2 bounce_num exclude start dir
        = some (Vec3.scale found.obj.color (SHADOW_DARKNESS F)) := by
  refine ⟨trace_at_of_shadow sqrt atan2 asin skybox objects bounce_num exclude start dir
    found occluder hdepth hhit hshadow, ?_⟩
  obtain ⟨f2, hhit2, hidx, hpoint, _, hsurf⟩ :=
    hittest_all_objects_same_some sqrt objects objects2 hsame exclude start dir found hhit
  obtain ⟨occ2, hocc2, _⟩ :=
    hittest_all_objects_same_some sqrt objects objects2 hsame (some found.idx)
      found.hitpoint (Vec3.neg (LIGHT_DIR F)) occluder hshadow
  rw [← hidx, ← hpoint] at hocc2
  rw [trace_at_of_shadow sqrt atan2 asin skybox objects2 bounce_num exclude start dir
    f2 occ2 hdepth hhit2 hocc2, hsurf.2]

end Tracer

/-! ## Evaluation of the test scene

A ray from `(2, 1, 4)` in direction `(2/3, 1/3, 2/3)` meets the wall at `(4, 2, 6)`,
is reflected to the slanted plane at `(1/2, 15/4, 19/2)` and from there back to the
wall at `(4, -2, 10)`, which lies in the shadow of the sphere. -/

section MirrorScene

theorem mirror_scene_second_bounce (c : Vec3 ℝ) (ro rq : ℝ) :
    hittest_all_objects Real.sqrt (mirror_scene ℝ c ro rq) (some 1) ⟨1 / 2, 15 / 4, 19 / 2⟩
        ⟨14 / 27, -23 / 27, 2 / 27⟩
      = some ⟨0, ⟨Shape.as_plane ⟨4, -2, -4⟩ ⟨1, 0, 0⟩, c, ro⟩, ⟨4, -2, 10⟩, ⟨1, 0, 0⟩⟩ := by
  have h0 : hittest Real.sqrt ⟨Shape.as_plane ⟨4, -2, -4⟩ ⟨1, 0, 0⟩, c, ro⟩
      ⟨1 / 2, 15 / 4, 19 / 2⟩ ⟨14 / 27, -23 / 27, 2 / 27⟩
      = some ⟨Real.sqrt (729 / 16), ⟨4, -2, 10⟩, ⟨1, 0, 0⟩⟩ := by
    norm_num [hittest, Vec3.dot, Vec3.sub, Vec3.add, Vec3.scale, Vec3.length, abs_le]
  have h2 : hittest Real.sqrt ⟨Shape.as_sphere ⟨0, -6, 7⟩ 2, ⟨5 / 10, 5 / 10, 5 / 10⟩,
      5 / 10⟩ ⟨1 / 2, 15 / 4, 19 / 2⟩ ⟨14 / 27, -23 / 27, 2 / 27⟩ = none := by
    norm_num [hittest, Vec3.dot, Vec3.sub, Vec3.add, Vec3.scale, Vec3.length, abs_le]
  simp only [hittest_all_objects, hittest_loop, hittest_body, mirror_scene, h0, h2]
  simp

theorem mirror_scene_wall_shadowed (c : Vec3 ℝ) (ro rq : ℝ) :
    ∃ occluder, hittest_all_objects Real.sqrt (mirror_scene ℝ c ro rq) (some 0) ⟨4, -2, 10⟩
        (Vec3.neg (LIGHT_DIR ℝ)) = some occluder := by
  have h1 : hittest Real.sqrt ⟨Shape.as_plane ⟨-3, 4, 2⟩ ⟨2 / 3, -2 / 3, -1 / 3⟩,
      ⟨5 / 10, 5 / 10, 5 / 10⟩, rq⟩ ⟨4, -2, 10⟩ (Vec3.neg (LIGHT_DIR ℝ)) = none := by
    norm_num [hittest, Vec3.dot, Vec3.sub, Vec3.add, Vec3.scale, Vec3.length, abs_le,
      Vec3.neg, LIGHT_DIR, SQRT3_INV]
  have h2 : ∃ h, hittest Real.sqrt ⟨Shape.as_sphere ⟨0, -6, 7⟩ 2, ⟨5 / 10, 5 / 10, 5 / 10⟩,
      5 / 10⟩ ⟨4, -2, 10⟩ (Vec3.neg (LIGHT_DIR ℝ)) = some h := by
    simp only [hittest, Vec3.dot, Vec3.sub, Vec3.neg, LIGHT_DIR, SQRT3_INV]
    rw [if_neg (by norm_num), if_neg]
    · exact ⟨_, rfl⟩
    · rw [not_lt, sub_nonneg, Real.sqrt_le_left (by norm_num)]
      norm_num
  obtain ⟨h, hh⟩ := h2
  simp only [hittest_all_objects, hittest_loop, hittest_body, mirror_scene, h1, hh]
  simp

end MirrorScene

/-! ## Instances on concrete scenes -/

section Instances

theorem trace_at_depth_guard_witness :
    (5 : Int) ≤ 5 ∧
      trace_at Real.sqrt (fun a b => Complex.arg ⟨b, a⟩) Real.arcsin (fun _ => ⟨0, 0, 0⟩)
        (generate_objects ℝ) 5 none ⟨0, 0, 0⟩ ⟨0, 0, 1⟩ = some ⟨1, 1, 1⟩ :=
  ⟨le_refl _, trace_at_depth_guard Real.sqrt (fun a b => Complex.arg ⟨b, a⟩) Real.arcsin
    (fun _ => ⟨0, 0, 0⟩) (generate_objects ℝ) 5 none ⟨0, 0, 0⟩ ⟨0, 0, 1⟩ (le_refl _)⟩

theorem trace_at_terminates_witness :
    (MAX_BOUNCE - 0).toNat ≤ 5 ∧
      ∃ calls, calls ≤ (MAX_BOUNCE - 0).toNat ∧
        trace_at_fuel Real.sqrt (fun a b => Complex.arg ⟨b, a⟩) Real.arcsin
            (fun _ => ⟨0, 0, 0⟩) (generate_objects ℝ) 5 0 none ⟨0, 0, 0⟩ ⟨0, 0, 1⟩
          = some (trace_at Real.sqrt (fun a b => Complex.arg ⟨b, a⟩) Real.arcsin
              (fun _ => ⟨0, 0, 0⟩) (generate_objects ℝ) 0 none ⟨0, 0, 0⟩ ⟨0, 0, 1⟩, calls) :=
  ⟨by decide, trace_at_terminates Real.sqrt (fun a b => Complex.arg ⟨b, a⟩) Real.arcsin
    (fun _ => ⟨0, 0, 0⟩) (generate_objects ℝ) 5 0 none ⟨0, 0, 0⟩ ⟨0, 0, 1⟩ (by decide)⟩

theorem mirror_scene_same (c : Vec3 ℝ) (ro ro2 rq rq2 : ℝ) :
    List.Forall₂ SameSurface (mirror_scene ℝ c ro rq) (mirror_scene ℝ c ro2 rq2) :=
  List.Forall₂.cons ⟨rfl, rfl⟩ (List.Forall₂.cons ⟨rfl, rfl⟩
    (List.Forall₂.cons ⟨rfl, rfl⟩ List.Forall₂.nil))

theorem trace_at_shadow_witness :
    ∃ occluder,
      List.Forall₂ SameSurface (mirror_scene ℝ ⟨1, 1, 1⟩ 1 1) (mirror_scene ℝ ⟨1, 1, 1⟩ 0 1) ∧
      (2 : Int) < 5 ∧
      hittest_all_objects Real.sqrt (mirror_scene ℝ ⟨1, 1, 1⟩ 1 1) (some 1)
          ⟨1 / 2, 15 / 4, 19 / 2⟩ ⟨14 / 27, -23 / 27, 2 / 27⟩
        = some ⟨0, ⟨Shape.as_plane ⟨4, -2, -4⟩ ⟨1, 0, 0⟩, ⟨1, 1, 1⟩, 1⟩, ⟨4, -2, 10⟩,
            ⟨1, 0, 0⟩⟩ ∧
      hittest_all_objects Real.sqrt (mirror_scene ℝ ⟨1, 1, 1⟩ 1 1) (some 0) ⟨4, -2, 10⟩
          (Vec3.neg (LIGHT_DIR ℝ)) = some occluder ∧
      (trace_at Real.sqrt (fun a b => Complex.arg ⟨b, a⟩) Real.arcsin (fun _ => ⟨0, 0, 0⟩)
          (mirror_scene ℝ ⟨1, 1, 1⟩ 1 1) 2 (some 1) ⟨1 / 2, 15 / 4, 19 / 2⟩
          ⟨14 / 27, -23 / 27, 2 / 27⟩
        = some (Vec3.scale ⟨1, 1, 1⟩ (SHADOW_DARKNESS ℝ)) ∧
       trace_at Real.sqrt (fun a b => Complex.arg ⟨b, a⟩) Real.arcsin (fun _ => ⟨0, 0, 0⟩)
          (mirror_scene ℝ ⟨1, 1, 1⟩ 0 1) 2 (some 1) ⟨1 / 2, 15 / 4, 19 / 2⟩
          ⟨14 / 27, -23 / 27, 2 / 27⟩
        = some (Vec3.scale ⟨1, 1, 1⟩ (SHADOW_DARKNESS ℝ))) := by
  obtain ⟨occluder, hocc⟩ := mirror_scene_wall_shadowed ⟨1, 1, 1⟩ 1 1
  exact ⟨occluder, mirror_scene_same _ _ _ _ _, by norm_num,
    mirror_scene_second_bounce _ _ _, hocc,
    trace_at_shadow Real.sqrt (fun a b => Complex.arg ⟨b, a⟩) Real.arcsin
      (fun _ => ⟨0, 0, 0⟩) (mirror_scene ℝ ⟨1, 1, 1⟩ 1 1) (mirror_scene ℝ ⟨1, 1, 1⟩ 0 1) 2
      (some 1) ⟨1 / 2, 15 / 4, 19 / 2⟩ ⟨14 / 27, -23 / 27, 2 / 27⟩
      ⟨0, ⟨Shape.as_plane ⟨4, -2, -4⟩ ⟨1, 0, 0⟩, ⟨1, 1, 1⟩, 1⟩, ⟨4, -2, 10⟩, ⟨1, 0, 0⟩⟩
      occluder (mirror_scene_same _ _ _ _ _) (by norm_num)
      (mirror_scene_second_bounce _ _ _) hocc⟩

theorem real_isSqrt : IsSqrt Real.sqrt :=
  fun x hx => ⟨Real.sqrt_nonneg x, Real.mul_self_sqrt hx⟩

theorem real_atan2_bounded : Atan2Bounded (fun a b : ℝ => Complex.arg ⟨b, a⟩) :=
  fun _ _ => le_trans (Complex.abs_arg_le_pi _) (le_of_lt (by
    have h := Real.pi_lt_d6
    norm_num at h ⊢
    exact h))

theorem real_asin_bounded : AsinBounded Real.arcsin := by
  intro y _ _
  have h := Real.pi_lt_d6
  have h1 := Real.arcsin_le_pi_div_two y
  have h2 := Real.neg_pi_div_two_le_arcsin y
  rw [abs_le]
  norm_num at h
  constructor <;> linarith

theorem get_skybox_channels_witness :
    Atan2Bounded (fun a b : ℝ => Complex.arg ⟨b, a⟩) ∧ AsinBounded Real.arcsin ∧
      (load_skybox (some (fun _ => 0)) : Option (Nat → Vec3 ℝ))
        = some (fun i => if i < SKYBOX_W * SKYBOX_H then unpack_texel 0 else ⟨0, 0, 0⟩) ∧
      Vec3.dot (⟨0, 0, 1⟩ : Vec3 ℝ) ⟨0, 0, 1⟩ = 1 ∧
      ∃ c, get_skybox (fun a b : ℝ => Complex.arg ⟨b, a⟩) Real.arcsin
          (fun i => if i < SKYBOX_W * SKYBOX_H then unpack_texel 0 else ⟨0, 0, 0⟩)
          ⟨0, 0, 1⟩ = some c ∧
        (0 ≤ c.x ∧ c.x ≤ 1) ∧ (0 ≤ c.y ∧ c.y ≤ 1) ∧ (0 ≤ c.z ∧ c.z ≤ 1) :=
  ⟨real_atan2_bounded, real_asin_bounded, rfl, by norm_num [Vec3.dot],
    get_skybox_channels (fun a b : ℝ => Complex.arg ⟨b, a⟩) Real.arcsin real_atan2_bounded
      real_asin_bounded (fun _ => 0) _ rfl ⟨0, 0, 1⟩ (by norm_num [Vec3.dot])⟩

end Instances

/-! ## Lighting -/

section Lighting

variable {F : Type} [LinearOrderedField F]

/-- C11: in each channel `k`, `lighting_equation(c, v, n)` is
`c_k * max(dot(lightDir, n), 0) + max(dot(normalize(v + lightDir), n), 0) ^ 15`: the
specular term is one scalar, added to all three channels, not multiplied by `c` or
by the diffuse factor (it is all that remains for the colour `(0, 0, 0)`, or when
the diffuse factor is 0), and nothing is clamped.  (In this embedding `normalize`
is a total function, so the equation needs no side condition.) -/
theorem lighting_equation_channels (sqrt : F → F) (c v n : Vec3 F) :
    (lighting_equation sqrt c v n).x
        = c.x * max (Vec3.dot (LIGHT_DIR F) n) 0
          + max (Vec3.dot (Vec3.normalize sqrt (Vec3.add v (LIGHT_DIR F))) n) 0 ^ 15 ∧
    (lighting_equation sqrt c v n).y
        = c.y * max (Vec3.dot (LIGHT_DIR F) n) 0
          + max (Vec3.dot (Vec3.normalize sqrt (Vec3.add v (LIGHT_DIR F))) n) 0 ^ 15 ∧
    (lighting_equation sqrt c v n).z
        = c.z * max (Vec3.dot (LIGHT_DIR F) n) 0
          + max (Vec3.dot (Vec3.normalize sqrt (Vec3.add v (LIGHT_DIR F))) n) 0 ^ 15 ∧
    lighting_equation sqrt ⟨0, 0, 0⟩ v n
        = ⟨max (Vec3.dot (Vec3.normalize sqrt (Vec3.add v (LIGHT_DIR F))) n) 0 ^ 15,
            max (Vec3.dot (Vec3.normalize sqrt (Vec3.add v (LIGHT_DIR F))) n) 0 ^ 15,
            max (Vec3.dot (Vec3.normalize sqrt (Vec3.add v (LIGHT_DIR F))) n) 0 ^ 15⟩ ∧
    (Vec3.dot (LIGHT_DIR F) n ≤ 0 →
      lighting_equation sqrt c v n
        = ⟨max (Vec3.dot (Vec3.normalize sqrt (Vec3.add v (LIGHT_DIR F))) n) 0 ^ 15,
            max (Vec3.dot (Vec3.normalize sqrt (Vec3.add v (LIGHT_DIR F))) n) 0 ^ 15,
            max (Vec3.dot (Vec3.normalize sqrt (Vec3.add v (LIGHT_DIR F))) n) 0 ^ 15⟩) := by
  refine ⟨rfl, rfl, rfl, ?_, fun hd => ?_⟩
  · simp [lighting_equation, Vec3.addScalar, Vec3.scale]
  · simp [lighting_equation, Vec3.addScalar, Vec3.scale, max_eq_right hd]

/-- The square root of 3 lies between 1.7320508 and 1.7320509. -/
theorem IsSqrt.sqrt_three_bounds {sqrt : F → F} (hsqrt : IsSqrt sqrt) :
    17320508 / 10000000 < sqrt 3 ∧ sqrt 3 < 17320509 / 10000000 := by
  obtain ⟨h0, h1⟩ := hsqrt 3 (by norm_num)
  constructor
  · by_contra h
    rw [not_lt] at h
    nlinarith
  · by_contra h
    rw [not_lt] at h
    nlinarith

/-- The constant `SQRT3_INV` differs from `1 / sqrt(3)` by less than `1e-6`. -/
theorem IsSqrt.sqrt3_inv_close {sqrt : F → F} (hsqrt : IsSqrt sqrt) :
    |SQRT3_INV F - 1 / sqrt 3| ≤ 1 / 1000000 := by
  obtain ⟨hlo, hhi⟩ := hsqrt.sqrt_three_bounds
  have hpos : (0 : F) < sqrt 3 := lt_trans (by norm_num) hlo
  rw [abs_le, SQRT3_INV]
  constructor
  · rw [neg_le_sub_iff_le_add, div_le_iff₀ hpos]
    nlinarith
  · rw [sub_le_iff_le_add, ← sub_le_iff_le_add', le_div_iff₀ hpos]
    nlinarith

/-- C12: for a hit on the plane through `(0, 5, 0)` with normal `(0, 1, 0)` and a
surface colour with channels in `[0, 1]`, the diffuse term of `lighting_equation`
(its result less the specular term) is within `1e-6` of `c * (1 / sqrt(3))` in
every channel. -/
theorem lighting_equation_diffuse_plane (sqrt : F → F) (hsqrt : IsSqrt sqrt)
    (color : Vec3 F) (reflectance : F) (start dir : Vec3 F) (h : Hit F)
    (hhit : hittest sqrt ⟨Shape.as_plane ⟨0, 5, 0⟩ ⟨0, 1, 0⟩, color, reflectance⟩ start dir
      = some h)
    (c v : Vec3 F) (hx : 0 ≤ c.x ∧ c.x ≤ 1) (hy : 0 ≤ c.y ∧ c.y ≤ 1)
    (hz : 0 ≤ c.z ∧ c.z ≤ 1) :
    |(lighting_equation sqrt c v h.normal).x
        - max (Vec3.dot (Vec3.normalize sqrt (Vec3.add v (LIGHT_DIR F))) h.normal) 0 ^ 15
        - c.x * (1 / sqrt 3)| ≤ 1 / 1000000 ∧
    |(lighting_equation sqrt c v h.normal).y
        - max (Vec3.dot (Vec3.normalize sqrt (Vec3.add v (LIGHT_DIR F))) h.normal) 0 ^ 15
        - c.y * (1 / sqrt 3)| ≤ 1 / 1000000 ∧
    |(lighting_equation sqrt c v h.normal).z
        - max (Vec3.dot (Vec3.normalize sqrt (Vec3.add v (LIGHT_DIR F))) h.normal) 0 ^ 15
        - c.z * (1 / sqrt 3)| ≤ 1 / 1000000 := by
  have hn : h.normal = ⟨0, 1, 0⟩ := by
    rw [hittest_plane_eq] at hhit
    split_ifs at hhit
    simp only [Option.some.injEq] at hhit
    rw [← hhit]
  have hd : max (Vec3.dot (LIGHT_DIR F) (⟨0, 1, 0⟩ : Vec3 F)) 0 = SQRT3_INV F := by
    have h1 : Vec3.dot (LIGHT_DIR F) (⟨0, 1, 0⟩ : Vec3 F) = SQRT3_INV F := by
      simp [Vec3.dot, LIGHT_DIR]
    rw [h1]
    exact max_eq_left (by rw [SQRT3_INV]; norm_num)
  have hclose := abs_le.mp hsqrt.sqrt3_inv_close
  have hchan : ∀ t : F, 0 ≤ t → t ≤ 1 →
      |t * SQRT3_INV F + max (Vec3.dot (Vec3.normalize sqrt (Vec3.add v (LIGHT_DIR F)))
          (⟨0, 1, 0⟩ : Vec3 F)) 0 ^ 15
        - max (Vec3.dot (Vec3.normalize sqrt (Vec3.add v (LIGHT_DIR F)))
          (⟨0, 1, 0⟩ : Vec3 F)) 0 ^ 15
        - t * (1 / sqrt 3)| ≤ 1 / 1000000 := by
    intro t ht0 ht1
    rw [abs_le]
    constructor <;> nlinarith [hclose.1, hclose.2]
  rw [hn]
  refine ⟨?_, ?_, ?_⟩
  · have := hchan c.x hx.1 hx.2
    simpa only [lighting_equation, Vec3.addScalar, Vec3.scale, hd] using this
  · have := hchan c.y hy.1 hy.2
    simpa only [lighting_equation, Vec3.addScalar, Vec3.scale, hd] using this
  · have := hchan c.z hz.1 hz.2
    simpa only [lighting_equation, Vec3.addScalar, Vec3.scale, hd] using this

end Lighting

section Texels

variable {F : Type} [LinearOrderedField F]

/-- The three bytes that the loader takes from a packed value: bits 8-15, 16-23
and 24-31.  The value is `u + 2^8 * r + 2^16 * g + 2^24 * b` up to a multiple of
`2^32` (`k = 0` for a non-negative `int`, `k = -1` for a negative one). -/
theorem unpack_texel_bytes (u r g b k : Int) (hu : 0 ≤ u ∧ u < 256) (hr : 0 ≤ r ∧ r < 256)
    (hg : 0 ≤ g ∧ g < 256) (hb : 0 ≤ b ∧ b < 256) :
    (unpack_texel (u + 2 ^ 8 * r + 2 ^ 16 * g + 2 ^ 24 * b + 2 ^ 32 * k) : Vec3 F)
      = ⟨(r : F) / 255, (g : F) / 255, (b : F) / 255⟩ := by
  have h8 : (u + 2 ^ 8 * r + 2 ^ 16 * g + 2 ^ 24 * b + 2 ^ 32 * k) / 2 ^ 8 % 256 = r := by
    norm_num
    omega
  have h16 : (u + 2 ^ 8 * r + 2 ^ 16 * g + 2 ^ 24 * b + 2 ^ 32 * k) / 2 ^ 16 % 256 = g := by
    norm_num
    omega
  have h24 : (u + 2 ^ 8 * r + 2 ^ 16 * g + 2 ^ 24 * b + 2 ^ 32 * k) / 2 ^ 24 % 256 = b := by
    norm_num
    omega
  simp only [unpack_texel, h8, h16, h24]

/-- C14, amended: for a 32-bit packed skybox value
`w = (blue << 24) | (green << 16) | (red << 8) | unused`, stored as an `int`, the
loader produces the texel `(red/255, green/255, blue/255)`: red is bits 8-15,
green is bits 16-23, blue is bits 24-31 and the low byte (bits 0-7) is ignored. -/
theorem load_skybox_texel (pixels : Nat → Int) (skybox : Nat → Vec3 F)
    (hload : load_skybox (some pixels) = some skybox) (i : Nat)
    (hi : i < SKYBOX_W * SKYBOX_H) (u r g b k : Int)
    (hu : 0 ≤ u ∧ u < 256) (hr : 0 ≤ r ∧ r < 256) (hg : 0 ≤ g ∧ g < 256)
    (hb : 0 ≤ b ∧ b < 256)
    (hw : pixels i = u + 2 ^ 8 * r + 2 ^ 16 * g + 2 ^ 24 * b + 2 ^ 32 * k) :
    skybox i = ⟨(r : F) / 255, (g : F) / 255, (b : F) / 255⟩ := by
  simp only [load_skybox, Option.some.injEq] at hload
  rw [← hload]
  simp only [hi, if_true]
  rw [hw, unpack_texel_bytes u r g b k hu hr hg hb]

end Texels

/-! ## Texel coordinates -/

section Coordinates

variable {F : Type} [LinearOrderedField F] [FloorRing F]

/-- C18: for a unit direction, with `u = 0.5 + atan2(d.x, d.z) / 6.28318` and
`v = 0.5 - asin(d.y) / 3.14159`, the values `u * 2998 + 0.5` and `v * 2998 + 0.5`
that `get_skybox` converts are non-negative, the texel coordinates
`x = floor(u * 2998 + 0.5)` and `y = floor(v * 2998 + 0.5)` are at most 2998, the
index `y * 3000 + x` is inside the `3000 * 3000` grid, and `get_skybox` returns the
texel at that index. -/
theorem get_skybox_coordinates (atan2 : F → F → F) (asin : F → F)
    (hatan2 : Atan2Bounded atan2) (hasin : AsinBounded asin) (skybox : Nat → Vec3 F)
    (dir : Vec3 F) (hunit : Vec3.dot dir dir = 1) :
    0 ≤ (5 / 10 + atan2 dir.x dir.z / (628318 / 100000)) * ((SKYBOX_W : F) - 2) + 5 / 10 ∧
    0 ≤ (5 / 10 - asin dir.y / (314159 / 100000)) * ((SKYBOX_H : F) - 2) + 5 / 10 ∧
    ⌊(5 / 10 + atan2 dir.x dir.z / (628318 / 100000)) * ((SKYBOX_W : F) - 2) + 5 / 10⌋₊
      ≤ 2998 ∧
    ⌊(5 / 10 - asin dir.y / (314159 / 100000)) * ((SKYBOX_H : F) - 2) + 5 / 10⌋₊ ≤ 2998 ∧
    ⌊(5 / 10 - asin dir.y / (314159 / 100000)) * ((SKYBOX_H : F) - 2) + 5 / 10⌋₊ * SKYBOX_W
        + ⌊(5 / 10 + atan2 dir.x dir.z / (628318 / 100000)) * ((SKYBOX_W : F) - 2)
          + 5 / 10⌋₊
      < SKYBOX_W * SKYBOX_H ∧
    get_skybox atan2 asin skybox dir
      = some (skybox
          (⌊(5 / 10 - asin dir.y / (314159 / 100000)) * ((SKYBOX_H : F) - 2) + 5 / 10⌋₊
            * SKYBOX_W
          + ⌊(5 / 10 + atan2 dir.x dir.z / (628318 / 100000)) * ((SKYBOX_W : F) - 2)
            + 5 / 10⌋₊)) := by
  have hy : -1 ≤ dir.y ∧ dir.y ≤ 1 := by
    unfold Vec3.dot at hunit
    constructor <;> nlinarith [mul_self_nonneg dir.x, mul_self_nonneg dir.z,
      mul_self_nonneg (dir.y - 1), mul_self_nonneg (dir.y + 1)]
  have ha := abs_le.mp (hatan2 dir.x dir.z)
  have hb := abs_le.mp (hasin dir.y hy.1 hy.2)
  have hW : ((SKYBOX_W : Nat) : F) = 3000 := by norm_num [SKYBOX_W]
  have hH : ((SKYBOX_H : Nat) : F) = 3000 := by norm_num [SKYBOX_H]
  have hx0 : 0 ≤ (5 / 10 + atan2 dir.x dir.z / (628318 / 100000)) * ((SKYBOX_W : F) - 2)
      + 5 / 10 := by
    rw [hW]
    linarith [ha.1]
  have hx1 : (5 / 10 + atan2 dir.x dir.z / (628318 / 100000)) * ((SKYBOX_W : F) - 2)
      + 5 / 10 < 2999 := by
    rw [hW]
    linarith [ha.2]
  have hy0 : 0 ≤ (5 / 10 - asin dir.y / (314159 / 100000)) * ((SKYBOX_H : F) - 2)
      + 5 / 10 := by
    rw [hH]
    linarith [hb.2]
  have hy1 : (5 / 10 - asin dir.y / (314159 / 100000)) * ((SKYBOX_H : F) - 2)
      + 5 / 10 < 2999 := by
    rw [hH]
    linarith [hb.1]
  have hxf : ⌊(5 / 10 + atan2 dir.x dir.z / (628318 / 100000)) * ((SKYBOX_W : F) - 2)
      + 5 / 10⌋₊ < 2999 := by
    rw [Nat.floor_lt hx0]
    exact_mod_cast hx1
  have hyf : ⌊(5 / 10 - asin dir.y / (314159 / 100000)) * ((SKYBOX_H : F) - 2)
      + 5 / 10⌋₊ < 2999 := by
    rw [Nat.floor_lt hy0]
    exact_mod_cast hy1
  have hidx : ⌊(5 / 10 - asin dir.y / (314159 / 100000)) * ((SKYBOX_H : F) - 2)
      + 5 / 10⌋₊ * SKYBOX_W
      + ⌊(5 / 10 + atan2 dir.x dir.z / (628318 / 100000)) * ((SKYBOX_W : F) - 2)
        + 5 / 10⌋₊ < SKYBOX_W * SKYBOX_H := by
    simp only [SKYBOX_W, SKYBOX_H] at hxf hyf ⊢
    omega
  refine ⟨hx0, hy0, by omega, by omega, hidx, ?_⟩
  have hcx : to_size_t ((5 / 10 + atan2 dir.x dir.z / (628318 / 100000))
      * ((SKYBOX_W : F) - 2) + 5 / 10) = some ⌊(5 / 10 + atan2 dir.x dir.z
        / (628318 / 100000)) * ((SKYBOX_W : F) - 2) + 5 / 10⌋₊ := by
    unfold to_size_t
    rw [if_pos ⟨by linarith, lt_trans hx1 (by norm_num)⟩]
  have hcy : to_size_t ((5 / 10 - asin dir.y / (314159 / 100000))
      * ((SKYBOX_H : F) - 2) + 5 / 10) = some ⌊(5 / 10 - asin dir.y
        / (314159 / 100000)) * ((SKYBOX_H : F) - 2) + 5 / 10⌋₊ := by
    unfold to_size_t
    rw [if_pos ⟨by linarith, lt_trans hy1 (by norm_num)⟩]
  simp only [get_skybox, hcx, hcy]
  have hmod : ∀ m : Nat, m < SKYBOX_W * SKYBOX_H → m % 2 ^ 64 = m := by
    intro m hm
    apply Nat.mod_eq_of_lt
    simp only [SKYBOX_W, SKYBOX_H] at hm
    omega
  rw [hmod _ hidx, if_pos hidx]

end Coordinates

/-! ## Further instances on concrete inputs -/

section MoreInstances

theorem lighting_equation_channels_witness :
    (lighting_equation Real.sqrt ⟨1, 1, 1⟩ ⟨1 - 57735 / 100000, -(57735 / 100000),
        -(57735 / 100000)⟩ ⟨1, 0, 0⟩).x = 157735 / 100000 ∧
      (1 : ℝ) < (lighting_equation Real.sqrt ⟨1, 1, 1⟩ ⟨1 - 57735 / 100000,
        -(57735 / 100000), -(57735 / 100000)⟩ ⟨1, 0, 0⟩).x := by
  have h := (lighting_equation_channels Real.sqrt ⟨1, 1, 1⟩
    ⟨1 - 57735 / 100000, -(57735 / 100000), -(57735 / 100000)⟩ ⟨1, 0, 0⟩).1
  have hv : Vec3.add (⟨1 - 57735 / 100000, -(57735 / 100000), -(57735 / 100000)⟩ : Vec3 ℝ)
      (LIGHT_DIR ℝ) = ⟨1, 0, 0⟩ := by
    simp [Vec3.add, LIGHT_DIR, SQRT3_INV]
  have hn : Vec3.normalize Real.sqrt (⟨1, 0, 0⟩ : Vec3 ℝ) = ⟨1, 0, 0⟩ := by
    simp [Vec3.normalize, Vec3.dot, Vec3.scale]
  have hval : (lighting_equation Real.sqrt ⟨1, 1, 1⟩ ⟨1 - 57735 / 100000,
      -(57735 / 100000), -(57735 / 100000)⟩ ⟨1, 0, 0⟩).x = 157735 / 100000 := by
    rw [h, hv, hn]
    norm_num [Vec3.dot, LIGHT_DIR, SQRT3_INV]
  exact ⟨hval, by rw [hval]; norm_num⟩

theorem lighting_equation_diffuse_plane_witness :
    ∃ h, IsSqrt Real.sqrt ∧
      hittest Real.sqrt ⟨Shape.as_plane ⟨0, 5, 0⟩ ⟨0, 1, 0⟩, ⟨0, 78 / 100, 3 / 10⟩, 2 / 10⟩
        ⟨0, 0, 0⟩ ⟨0, 1, 0⟩ = some h ∧
      ((0 : ℝ) ≤ 0 ∧ (0 : ℝ) ≤ 1) ∧ ((0 : ℝ) ≤ 78 / 100 ∧ (78 / 100 : ℝ) ≤ 1) ∧
      ((0 : ℝ) ≤ 3 / 10 ∧ (3 / 10 : ℝ) ≤ 1) ∧
      (|(lighting_equation Real.sqrt ⟨0, 78 / 100, 3 / 10⟩ ⟨0, 1, 0⟩ h.normal).x
          - max (Vec3.dot (Vec3.normalize Real.sqrt (Vec3.add ⟨0, 1, 0⟩ (LIGHT_DIR ℝ)))
              h.normal) 0 ^ 15
          - 0 * (1 / Real.sqrt 3)| ≤ 1 / 1000000 ∧
       |(lighting_equation Real.sqrt ⟨0, 78 / 100, 3 / 10⟩ ⟨0, 1, 0⟩ h.normal).y
          - max (Vec3.dot (Vec3.normalize Real.sqrt (Vec3.add ⟨0, 1, 0⟩ (LIGHT_DIR ℝ)))
              h.normal) 0 ^ 15
          - 78 / 100 * (1 / Real.sqrt 3)| ≤ 1 / 1000000 ∧
       |(lighting_equation Real.sqrt ⟨0, 78 / 100, 3 / 10⟩ ⟨0, 1, 0⟩ h.normal).z
          - max (Vec3.dot (Vec3.normalize Real.sqrt (Vec3.add ⟨0, 1, 0⟩ (LIGHT_DIR ℝ)))
              h.normal) 0 ^ 15
          - 3 / 10 * (1 / Real.sqrt 3)| ≤ 1 / 1000000) := by
  have hhit : ∃ h, hittest Real.sqrt ⟨Shape.as_plane ⟨0, 5, 0⟩ ⟨0, 1, 0⟩,
      ⟨0, 78 / 100, 3 / 10⟩, 2 / 10⟩ ⟨0, 0, 0⟩ ⟨0, 1, 0⟩ = some h := by
    rw [hittest_plane_eq, if_neg (by norm_num [Vec3.dot]),
      if_neg (by norm_num [Vec3.dot, Vec3.sub])]
    exact ⟨_, rfl⟩
  obtain ⟨h, hh⟩ := hhit
  exact ⟨h, real_isSqrt, hh, ⟨le_refl _, zero_le_one⟩, ⟨by norm_num, by norm_num⟩,
    ⟨by norm_num, by norm_num⟩,
    lighting_equation_diffuse_plane Real.sqrt real_isSqrt ⟨0, 78 / 100, 3 / 10⟩ (2 / 10)
      ⟨0, 0, 0⟩ ⟨0, 1, 0⟩ h hh ⟨0, 78 / 100, 3 / 10⟩ ⟨0, 1, 0⟩ ⟨le_refl _, zero_le_one⟩
      ⟨by norm_num, by norm_num⟩ ⟨by norm_num, by norm_num⟩⟩

theorem load_skybox_texel_witness :
    (load_skybox (some (fun _ => 68 + 2 ^ 8 * 51 + 2 ^ 16 * 34 + 2 ^ 24 * 17 + 2 ^ 32 * 0))
        : Option (Nat → Vec3 ℝ))
      = some (fun i => if i < SKYBOX_W * SKYBOX_H
          then unpack_texel (68 + 2 ^ 8 * 51 + 2 ^ 16 * 34 + 2 ^ 24 * 17 + 2 ^ 32 * 0)
          else ⟨0, 0, 0⟩) ∧
      0 < SKYBOX_W * SKYBOX_H ∧
      (fun i => if i < SKYBOX_W * SKYBOX_H
          then (unpack_texel (68 + 2 ^ 8 * 51 + 2 ^ 16 * 34 + 2 ^ 24 * 17 + 2 ^ 32 * 0)
            : Vec3 ℝ)
          else ⟨0, 0, 0⟩) 0
        = ⟨((51 : Int) : ℝ) / 255, ((34 : Int) : ℝ) / 255, ((17 : Int) : ℝ) / 255⟩ :=
  ⟨rfl, by decide,
    load_skybox_texel (fun _ => 68 + 2 ^ 8 * 51 + 2 ^ 16 * 34 + 2 ^ 24 * 17 + 2 ^ 32 * 0) _ rfl
      0 (by decide) 68 51 34 17 0 (by decide) (by decide) (by decide) (by decide) rfl⟩

/-- C14, counterexample: for the packed value `255`, whose bits 0-7 are all set and
whose other bits are clear, the loader produces the texel `(0, 0, 0)`, not
`(255/255, 0, 0)`: it does not take red from bits 0-7. -/
theorem load_skybox_low_byte_ignored :
    ∃ skybox : Nat → Vec3 ℝ, load_skybox (some (fun _ => 255)) = some skybox ∧
      skybox 0 = ⟨0, 0, 0⟩ ∧ skybox 0 ≠ ⟨255 / 255, 0 / 255, 0 / 255⟩ := by
  refine ⟨_, rfl, ?_, ?_⟩
  · norm_num [SKYBOX_W, SKYBOX_H, unpack_texel]
  · norm_num [SKYBOX_W, SKYBOX_H, unpack_texel]

theorem get_skybox_coordinates_witness :
    Atan2Bounded (fun a b : ℝ => Complex.arg ⟨b, a⟩) ∧ AsinBounded Real.arcsin ∧
      Vec3.dot (⟨0, 0, -1⟩ : Vec3 ℝ) ⟨0, 0, -1⟩ = 1 ∧
      (1 : ℝ) < 5 / 10 + Complex.arg ⟨-1, 0⟩ / (628318 / 100000) ∧
      ∃ x y, x ≤ 2998 ∧ y ≤ 2998 ∧ y * SKYBOX_W + x < SKYBOX_W * SKYBOX_H ∧
        get_skybox (fun a b : ℝ => Complex.arg ⟨b, a⟩) Real.arcsin (fun _ => ⟨0, 0, 0⟩)
          ⟨0, 0, -1⟩ = some ((fun _ => ⟨0, 0, 0⟩ : Nat → Vec3 ℝ) (y * SKYBOX_W + x)) := by
  have hunit : Vec3.dot (⟨0, 0, -1⟩ : Vec3 ℝ) ⟨0, 0, -1⟩ = 1 := by norm_num [Vec3.dot]
  have harg : Complex.arg ⟨-1, 0⟩ = Real.pi := by
    have h1 : (⟨-1, 0⟩ : ℂ) = -1 := by
      apply Complex.ext <;> simp
    rw [h1, Complex.arg_neg_one]
  have hu : (1 : ℝ) < 5 / 10 + Complex.arg ⟨-1, 0⟩ / (628318 / 100000) := by
    rw [harg]
    have hpi := Real.pi_gt_d6
    norm_num at hpi ⊢
    linarith
  obtain ⟨_, _, hx, hy, hidx, hget⟩ :=
    get_skybox_coordinates (fun a b : ℝ => Complex.arg ⟨b, a⟩) Real.arcsin
      real_atan2_bounded real_asin_bounded (fun _ => (⟨0, 0, 0⟩ : Vec3 ℝ))
      (⟨0, 0, -1⟩ : Vec3 ℝ) hunit
  exact ⟨real_atan2_bounded, real_asin_bounded, hunit, hu, _, _, hx, hy, hidx, hget⟩

end MoreInstances

/-! ## Binary32: the order of the numbers -/

section Order32

theorem b32_inf_eq : B32.div (B32.ofRat 1) (B32.ofRat 0) = B32.inf false := by decide!

theorem b32_lt_irrefl (a : B32) : B32.lt a a = false := by
  cases a with
  | nan => rfl
  | inf s => cases s <;> rfl
  | fin s a => simp [B32.lt]

theorem b32_lt_trans {a b c : B32} (h1 : B32.lt a b = true) (h2 : B32.lt b c = true) :
    B32.lt a c = true := by
  cases a <;> cases b <;> cases c <;> simp_all [B32.lt]
  exact lt_trans h1 h2

theorem b32_le_of_lt {a b : B32} (h : B32.lt a b = true) : B32.le a b = true := by
  cases a <;> cases b <;> simp_all [B32.lt, B32.le]
  exact le_of_lt h

theorem b32_lt_of_lt_of_le {a b c : B32} (h1 : B32.lt a b = true) (h2 : B32.le b c = true) :
    B32.lt a c = true := by
  cases a <;> cases b <;> cases c <;> simp_all [B32.lt, B32.le]
  exact lt_of_lt_of_le h1 h2

theorem b32_le_refl {a : B32} (h : B32.le a (B32.inf false) = true) : B32.le a a = true := by
  cases a <;> simp_all [B32.le]

/-- Two numbers that are not NaN compare one way or the other. -/
theorem b32_le_of_not_lt {a b : B32} (h : B32.lt a b = false)
    (ha : B32.le a (B32.inf false) = true) (hb : B32.le b (B32.inf false) = true) :
    B32.le b a = true := by
  rcases a with _ | s | ⟨s, x⟩ <;> rcases b with _ | t | ⟨t, y⟩ <;>
    simp_all [B32.lt, B32.le]
  cases s <;> cases t <;> simp_all

theorem b32_lt_inf_of_lt {a b : B32} (h : B32.lt a b = true) :
    B32.lt a (B32.inf false) = true := by
  cases a <;> cases b <;> simp_all [B32.lt]

theorem b32_le_inf_of_lt_inf {a : B32} (h : B32.lt a (B32.inf false) = true) :
    B32.le a (B32.inf false) = true := by
  cases a <;> simp_all [B32.lt, B32.le]

theorem b32_not_lt_of_eq {a b : B32} (h : B32.eq a b = true) : B32.lt b a = false := by
  cases a <;> cases b <;> simp_all [B32.lt, B32.eq]

end Order32

/-! ## Binary32: the nearest-hit scan -/

namespace Binary32

theorem b32_lt_asymm {a b : B32} (h : B32.lt a b = true) : B32.lt b a = false := by
  cases hba : B32.lt b a with
  | false => rfl
  | true =>
    have h1 := b32_lt_trans h hba
    rw [b32_lt_irrefl] at h1
    exact absurd h1 (by simp)

theorem b32_lt_of_eq_of_lt {a b c : B32} (h1 : B32.eq a b = true) (h2 : B32.lt b c = true) :
    B32.lt a c = true := by
  cases a <;> cases b <;> cases c <;> simp_all [B32.lt, B32.eq]

/-- One loop iteration leaves the accumulator as it was, or replaces it by the hit
on the current object, whose distance is below the old `smallest`. -/
theorem hittest_body32_cases (ignore : Option Nat) (start dir : Vec3 B32) (o : Object B32)
    (i : Nat) (acc : B32 × Option (Found B32)) :
    (hittest_body ignore start dir o i acc = acc ∧
        (ignore ≠ some i → ∀ h, hittest o start dir = some h → B32.lt h.dist acc.1 = false)) ∨
      (ignore ≠ some i ∧ ∃ h, hittest o start dir = some h ∧ B32.lt h.dist acc.1 = true ∧
        hittest_body ignore start dir o i acc = (h.dist, some ⟨i, o, h.point, h.normal⟩)) := by
  unfold hittest_body
  by_cases hi : ignore = some i
  · left
    rw [if_pos hi]
    exact ⟨rfl, fun hne => absurd hi hne⟩
  · rw [if_neg hi]
    cases hh : hittest o start dir with
    | none =>
      left
      exact ⟨rfl, fun _ h hc => by simp at hc⟩
    | some h =>
      by_cases hlt : B32.lt h.dist acc.1 = true
      · right
        exact ⟨hi, h, rfl, hlt, by simp only [hlt, if_true]⟩
      · left
        refine ⟨by simp only [hlt]; rfl, fun _ h1 hc => ?_⟩
        simp only [Option.some.injEq] at hc
        subst hc
        simpa using hlt

/-- Provenance of the final accumulator of the scan: it is the initial one, or the
hit on a scanned, non-ignored object whose distance is below the initial
`smallest`. -/
theorem hittest_loop32_origin (ignore : Option Nat) (start dir : Vec3 B32)
    (objs : List (Object B32)) (i : Nat) (acc : B32 × Option (Found B32)) :
    hittest_loop ignore start dir objs i acc = acc ∨
      (B32.lt (hittest_loop ignore start dir objs i acc).1 acc.1 = true ∧
        ∃ f, (hittest_loop ignore start dir objs i acc).2 = some f ∧
          (∃ j, f.idx = i + j ∧ objs[j]? = some f.obj) ∧ ignore ≠ some f.idx ∧
          hittest f.obj start dir
            = some ⟨(hittest_loop ignore start dir objs i acc).1, f.hitpoint, f.hitnormal⟩) := by
  induction objs generalizing i acc with
  | nil =>
    left
    rfl
  | cons o rest ih =>
    rw [hittest_loop]
    rcases hittest_body32_cases ignore start dir o i acc with
      ⟨hb, _⟩ | ⟨hne, h, hh, hlt, hb⟩
    · rw [hb]
      rcases ih (i + 1) acc with h0 | ⟨h1, f, hf, ⟨j, hj, hget⟩, hign, hhit⟩
      · exact Or.inl h0
      · exact Or.inr ⟨h1, f, hf, ⟨j + 1, by omega, by simpa using hget⟩, hign, hhit⟩
    · rw [hb]
      right
      rcases ih (i + 1) (h.dist, some ⟨i, o, h.point, h.normal⟩) with
        h0 | ⟨h1, f, hf, ⟨j, hj, hget⟩, hign, hhit⟩
      · rw [h0]
        exact ⟨hlt, ⟨i, o, h.point, h.normal⟩, rfl, ⟨0, rfl, by simp⟩, hne, hh⟩
      · exact ⟨b32_lt_trans h1 hlt, f, hf, ⟨j + 1, by omega, by simpa using hget⟩, hign, hhit⟩

/-- Minimality of the final accumulator of the scan: no scanned, non-ignored object
is hit at a distance below the final `smallest`, and one hit at an equal distance
has no smaller index than the object found, unless the accumulator is the initial
one. -/
theorem hittest_loop32_min (ignore : Option Nat) (start dir : Vec3 B32)
    (objs : List (Object B32)) (i : Nat) (acc : B32 × Option (Found B32))
    (j : Nat) (o : Object B32) (h : Hit B32) (hj : objs[j]? = some o)
    (hne : ignore ≠ some (i + j)) (hh : hittest o start dir = some h) :
    B32.lt h.dist (hittest_loop ignore start dir objs i acc).1 = false ∧
      (B32.eq h.dist (hittest_loop ignore start dir objs i acc).1 = true →
        hittest_loop ignore start dir objs i acc = acc ∨
          ∃ f, (hittest_loop ignore start dir objs i acc).2 = some f ∧ f.idx ≤ i + j) := by
  induction objs generalizing i acc j with
  | nil => simp at hj
  | cons o1 rest ih =>
    rw [hittest_loop]
    cases j with
    | zero =>
      simp only [List.getElem?_cons_zero, Option.some.injEq] at hj
      subst hj
      rcases hittest_body32_cases ignore start dir o1 i acc with
        ⟨hb, hno⟩ | ⟨_, h1, hh1, hlt, hb⟩
      · rw [hb]
        have hnlt := hno hne h hh
        rcases hittest_loop32_origin ignore start dir rest (i + 1) acc with h0 | ⟨h2, _⟩
        · rw [h0]
          exact ⟨hnlt, fun _ => Or.inl rfl⟩
        · constructor
          · cases hc : B32.lt h.dist (hittest_loop ignore start dir rest (i + 1) acc).1 with
            | false => rfl
            | true =>
              rw [b32_lt_trans hc h2] at hnlt
              exact absurd hnlt (by simp)
          · intro he
            rw [b32_lt_of_eq_of_lt he h2] at hnlt
            exact absurd hnlt (by simp)
      · rw [hb]
        rw [hh] at hh1
        simp only [Option.some.injEq] at hh1
        subst hh1
        rcases hittest_loop32_origin ignore start dir rest (i + 1)
          (h.dist, some ⟨i, o1, h.point, h.normal⟩) with h0 | ⟨h2, _⟩
        · rw [h0]
          exact ⟨b32_lt_irrefl _, fun _ => Or.inr ⟨_, rfl, by simp⟩⟩
        · refine ⟨b32_lt_asymm h2, fun he => ?_⟩
          have h3 := b32_not_lt_of_eq he
          rw [h2] at h3
          exact absurd h3 (by simp)
    | succ j =>
      simp only [List.getElem?_cons_succ] at hj
      have hne1 : ignore ≠ some (i + 1 + j) := by
        rwa [show i + 1 + j = i + (j + 1) by omega]
      obtain ⟨h1, h2⟩ := ih (i + 1) (hittest_body ignore start dir o1 i acc) j hj hne1
      refine ⟨h1, fun he => ?_⟩
      rcases h2 he with h3 | ⟨f, hf, hle⟩
      · rw [h3]
        rcases hittest_body32_cases ignore start dir o1 i acc with
          ⟨hb, _⟩ | ⟨_, h4, _, _, hb⟩
        · exact Or.inl hb
        · rw [hb]
          exact Or.inr ⟨_, rfl, by simp⟩
      · exact Or.inr ⟨f, hf, by omega⟩

/-- C3, as amended: `hittest_all_objects` returns nothing exactly when no
non-excluded object is hit at a distance below `+infinity`; otherwise it returns a
non-excluded object of the scene with that object's own hit point and normal, whose
reported distance is below `+infinity`, minimal among the non-excluded objects hit
at a distance below `+infinity`, and which has the smallest index among those hit
at that minimal distance. -/
theorem hittest_all_objects_nearest (objects : List (Object B32)) (ignore : Option Nat)
    (start dir : Vec3 B32) :
    (hittest_all_objects objects ignore start dir = none ↔
      ∀ i o h, objects[i]? = some o → ignore ≠ some i → hittest o start dir = some h →
        B32.lt h.dist (B32.inf false) = false) ∧
    ∀ f, hittest_all_objects objects ignore start dir = some f →
      ignore ≠ some f.idx ∧ objects[f.idx]? = some f.obj ∧
      ∃ dist, hittest f.obj start dir = some ⟨dist, f.hitpoint, f.hitnormal⟩ ∧
        B32.lt dist (B32.inf false) = true ∧
        ∀ j o h, objects[j]? = some o → ignore ≠ some j →
          hittest o start dir = some h → B32.lt h.dist (B32.inf false) = true →
            B32.le dist h.dist = true ∧ (B32.eq h.dist dist = true → f.idx ≤ j) := by
  unfold hittest_all_objects
  rw [b32_inf_eq]
  have key : ∀ f, (hittest_loop ignore start dir objects 0 (B32.inf false, none)).2 = some f →
      ignore ≠ some f.idx ∧ objects[f.idx]? = some f.obj ∧
      ∃ dist, hittest f.obj start dir = some ⟨dist, f.hitpoint, f.hitnormal⟩ ∧
        B32.lt dist (B32.inf false) = true ∧
        ∀ j o h, objects[j]? = some o → ignore ≠ some j →
          hittest o start dir = some h → B32.lt h.dist (B32.inf false) = true →
            B32.le dist h.dist = true ∧ (B32.eq h.dist dist = true → f.idx ≤ j) := by
    intro f hf
    rcases hittest_loop32_origin ignore start dir objects 0 (B32.inf false, none) with
      h0 | ⟨hlt, f1, hf1, ⟨j, hj, hget⟩, hign, hhit⟩
    · rw [h0] at hf
      simp at hf
    · rw [hf] at hf1
      simp only [Option.some.injEq] at hf1
      subst hf1
      refine ⟨hign, ?_, _, hhit, hlt, fun j1 o h hj1 hne hh hfin => ?_⟩
      · rw [hj, Nat.zero_add]
        exact hget
      · have hm := hittest_loop32_min ignore start dir objects 0 (B32.inf false, none) j1 o h
          hj1 (by rwa [Nat.zero_add]) hh
        refine ⟨b32_le_of_not_lt hm.1 (b32_le_inf_of_lt_inf hfin) (b32_le_inf_of_lt_inf hlt),
          fun he => ?_⟩
        rcases hm.2 he with h0 | ⟨f2, hf2, hle⟩
        · rw [h0] at hf
          simp at hf
        · rw [hf] at hf2
          simp only [Option.some.injEq] at hf2
          subst hf2
          omega
  refine ⟨⟨fun hnone i o h hi hne hh => ?_, fun hall => ?_⟩, key⟩
  · have hm := hittest_loop32_min ignore start dir objects 0 (B32.inf false, none) i o h hi
      (by rwa [Nat.zero_add]) hh
    rcases hittest_loop32_origin ignore start dir objects 0 (B32.inf false, none) with
      h0 | ⟨_, f1, hf1, _⟩
    · rw [h0] at hm
      exact hm.1
    · rw [hnone] at hf1
      simp at hf1
  · cases hres : (hittest_loop ignore start dir objects 0 (B32.inf false, none)).2 with
    | none => rfl
    | some f =>
      obtain ⟨hign, hget, dist, hhit, hlt, _⟩ := key f hres
      rw [hall f.idx f.obj _ hget hign hhit] at hlt
      exact absurd hlt (by simp)

end Binary32

/-! ## Binary32: the rounding error -/

section Rounding32

theorem b32_bitsAux_zero (fuel : Nat) : B32.bitsAux fuel 0 = 0 := by
  cases fuel <;> simp [B32.bitsAux]

/-- A positive `n` has `bits n` binary digits: `2 ^ (bits n - 1) ≤ n < 2 ^ bits n`. -/
theorem b32_bitsAux_spec (fuel n : Nat) (hn : n ≤ fuel) (h0 : n ≠ 0) :
    ∃ b, B32.bitsAux fuel n = b + 1 ∧ 2 ^ b ≤ n ∧ n < 2 ^ (b + 1) := by
  induction fuel generalizing n with
  | zero => omega
  | succ fuel ih =>
    rw [B32.bitsAux, if_neg h0]
    by_cases h1 : n / 2 = 0
    · rw [h1, b32_bitsAux_zero]
      refine ⟨0, rfl, ?_, ?_⟩ <;> simp <;> omega
    · obtain ⟨b, hb, hlo, hhi⟩ := ih (n / 2) (by omega) h1
      refine ⟨b + 1, by rw [hb], ?_, ?_⟩
      · rw [pow_succ]
        omega
      · rw [pow_succ]
        omega

theorem b32_bits_spec (n : Nat) (h0 : n ≠ 0) :
    ∃ b, B32.bits n = b + 1 ∧ 2 ^ b ≤ n ∧ n < 2 ^ (b + 1) :=
  b32_bitsAux_spec n n (le_refl n) h0

/-- The exponent found by `ilog2` is that of the binade of `a`. -/
theorem b32_ilog2_spec (a : ℚ) (ha : 0 < a) :
    (2 : ℚ) ^ B32.ilog2 a ≤ a ∧ a < (2 : ℚ) ^ (B32.ilog2 a + 1) := by
  have hnum : 0 < a.num := Rat.num_pos.mpr ha
  obtain ⟨bn, hbn, hnlo, hnhi⟩ := b32_bits_spec a.num.natAbs (by omega)
  obtain ⟨bd, hbd, hdlo, hdhi⟩ := b32_bits_spec a.den a.den_nz
  have hden : (0 : ℚ) < a.den := by exact_mod_cast a.den_pos
  have hnq : (a.num.natAbs : ℚ) = a.num := by
    rw [Nat.cast_natAbs, abs_of_pos hnum]
  have ha_eq : a = (a.num.natAbs : ℚ) / a.den := by
    rw [hnq]
    exact (Rat.num_div_den a).symm
  have h1 : ((2 : ℚ) ^ bn) ≤ (a.num.natAbs : ℚ) := by exact_mod_cast hnlo
  have h2 : (a.num.natAbs : ℚ) < (2 : ℚ) ^ (bn + 1) := by exact_mod_cast hnhi
  have h3 : ((2 : ℚ) ^ bd) ≤ (a.den : ℚ) := by exact_mod_cast hdlo
  have h4 : (a.den : ℚ) < (2 : ℚ) ^ (bd + 1) := by exact_mod_cast hdhi
  have hl : ((B32.bits a.num.natAbs : Int) - (B32.bits a.den : Int)) = (bn : Int) - bd := by
    rw [hbn, hbd]
    push_cast
    ring
  have hlow : (2 : ℚ) ^ ((bn : Int) - bd - 1) ≤ a := by
    rw [ha_eq, le_div_iff₀ hden]
    have e : (2 : ℚ) ^ ((bn : Int) - bd - 1) * (2 : ℚ) ^ (bd + 1) = (2 : ℚ) ^ bn := by
      rw [← zpow_natCast (2 : ℚ) (bd + 1), ← zpow_add₀ (by norm_num : (2 : ℚ) ≠ 0),
        ← zpow_natCast (2 : ℚ) bn]
      congr 1
      push_cast
      ring
    calc (2 : ℚ) ^ ((bn : Int) - bd - 1) * (a.den : ℚ)
        ≤ (2 : ℚ) ^ ((bn : Int) - bd - 1) * (2 : ℚ) ^ (bd + 1) :=
          mul_le_mul_of_nonneg_left h4.le (by positivity)
      _ = (2 : ℚ) ^ bn := e
      _ ≤ _ := h1
  have hupp : a < (2 : ℚ) ^ ((bn : Int) - bd + 1) := by
    rw [ha_eq, div_lt_iff₀ hden]
    have e : (2 : ℚ) ^ ((bn : Int) - bd + 1) * (2 : ℚ) ^ bd = (2 : ℚ) ^ (bn + 1) := by
      rw [← zpow_natCast (2 : ℚ) bd, ← zpow_add₀ (by norm_num : (2 : ℚ) ≠ 0),
        ← zpow_natCast (2 : ℚ) (bn + 1)]
      congr 1
      push_cast
      ring
    calc (a.num.natAbs : ℚ) < (2 : ℚ) ^ (bn + 1) := h2
      _ = (2 : ℚ) ^ ((bn : Int) - bd + 1) * (2 : ℚ) ^ bd := e.symm
      _ ≤ (2 : ℚ) ^ ((bn : Int) - bd + 1) * (a.den : ℚ) :=
          mul_le_mul_of_nonneg_left h3 (by positivity)
  unfold B32.ilog2
  simp only [hl]
  by_cases hc : (2 : ℚ) ^ ((bn : Int) - bd) ≤ a
  · rw [if_pos hc]
    exact ⟨hc, hupp⟩
  · rw [if_neg hc]
    refine ⟨hlow, ?_⟩
    rw [sub_add_cancel]
    exact not_le.mp hc

/-- Rounding to the nearest integer moves a number by at most one half. -/
theorem b32_roundHalfEven_err (x : ℚ) : |(B32.roundHalfEven x : ℚ) - x| ≤ 1 / 2 := by
  unfold B32.roundHalfEven
  have h1 := Int.floor_le x
  have h2 := Int.lt_floor_add_one x
  rw [abs_le]
  simp only
  split_ifs with c1 c2 c3
  · constructor <;> linarith
  · push_cast
    constructor <;> linarith
  · have : x - ⌊x⌋ = 1 / 2 := le_antisymm (not_lt.mp c2) (not_lt.mp c1)
    constructor <;> linarith
  · have : x - ⌊x⌋ = 1 / 2 := le_antisymm (not_lt.mp c2) (not_lt.mp c1)
    push_cast
    constructor <;> linarith

theorem b32_roundHalfEven_nonneg (x : ℚ) (hx : 0 ≤ x) : 0 ≤ B32.roundHalfEven x := by
  unfold B32.roundHalfEven
  have h0 : 0 ≤ ⌊x⌋ := Int.floor_nonneg.mpr hx
  simp only
  split_ifs <;> omega

/-- The rounded magnitude lies within half a unit of the last place. -/
theorem b32_rndMag_err (a : ℚ) :
    |B32.rndMag a - a| ≤ (2 : ℚ) ^ B32.ulpExp a / 2 := by
  unfold B32.rndMag
  have hp : (0 : ℚ) < (2 : ℚ) ^ B32.ulpExp a := by positivity
  have h := b32_roundHalfEven_err (a / (2 : ℚ) ^ B32.ulpExp a)
  have e : (B32.roundHalfEven (a / (2 : ℚ) ^ B32.ulpExp a) : ℚ) * (2 : ℚ) ^ B32.ulpExp a - a
      = ((B32.roundHalfEven (a / (2 : ℚ) ^ B32.ulpExp a) : ℚ) - a / (2 : ℚ) ^ B32.ulpExp a)
        * (2 : ℚ) ^ B32.ulpExp a := by
    field_simp
  rw [e, abs_mul, abs_of_pos hp]
  calc _ ≤ 1 / 2 * (2 : ℚ) ^ B32.ulpExp a := mul_le_mul_of_nonneg_right h hp.le
    _ = _ := by ring

theorem b32_rndMag_nonneg (a : ℚ) (ha : 0 ≤ a) : 0 ≤ B32.rndMag a := by
  unfold B32.rndMag
  have h := b32_roundHalfEven_nonneg (a / (2 : ℚ) ^ B32.ulpExp a) (by positivity)
  have : (0 : ℚ) ≤ (B32.roundHalfEven (a / (2 : ℚ) ^ B32.ulpExp a) : ℚ) := by exact_mod_cast h
  positivity

/-- Below `2 ^ (k + 1)` the unit of the last place is at most `2 ^ (k - 23)`. -/
theorem b32_ulpExp_le (a : ℚ) (k : Int) (ha : 0 < a) (hk : -126 ≤ k)
    (hlt : a < (2 : ℚ) ^ (k + 1)) : B32.ulpExp a ≤ k - 23 := by
  have h := (b32_ilog2_spec a ha).1
  have h1 : (2 : ℚ) ^ B32.ilog2 a < (2 : ℚ) ^ (k + 1) := lt_of_le_of_lt h hlt
  have h2 : B32.ilog2 a < k + 1 := (zpow_lt_zpow_iff_right₀ (by norm_num : (1 : ℚ) < 2)).mp h1
  unfold B32.ulpExp
  omega

/-- Below `2 ^ (k + 1)` rounding moves a magnitude by at most `2 ^ (k - 24)`. -/
theorem b32_rndMag_close (a : ℚ) (k : Int) (ha : 0 ≤ a) (hk : -126 ≤ k)
    (hlt : a < (2 : ℚ) ^ (k + 1)) : |B32.rndMag a - a| ≤ (2 : ℚ) ^ (k - 24) := by
  rcases eq_or_lt_of_le ha with h0 | hpos
  · rw [← h0]
    simp [B32.rndMag, B32.roundHalfEven]
    positivity
  · have h1 := b32_rndMag_err a
    have h2 := b32_ulpExp_le a k hpos hk hlt
    have h3 : (2 : ℚ) ^ B32.ulpExp a ≤ (2 : ℚ) ^ (k - 23) :=
      zpow_le_zpow_right₀ (by norm_num) h2
    have h4 : (2 : ℚ) ^ (k - 23) = 2 * (2 : ℚ) ^ (k - 24) := by
      rw [show k - 23 = (k - 24) + 1 by ring, zpow_add_one₀ (by norm_num : (2 : ℚ) ≠ 0)]
      ring
    linarith

end Rounding32

/-! ## Binary32: pixels -/

section Pixel32

theorem b32_rndMag_zero : B32.rndMag 0 = 0 := by
  simp [B32.rndMag, B32.roundHalfEven]

/-- Below `2 ^ 127` rounding does not overflow. -/
theorem b32_rnd_small (s : Bool) (a : ℚ) (k : Int) (ha : 0 ≤ a) (hk : -126 ≤ k)
    (hk2 : k ≤ 126) (hlt : a < (2 : ℚ) ^ (k + 1)) : B32.rnd s a = B32.fin s (B32.rndMag a) := by
  unfold B32.rnd
  by_cases h0 : a = 0
  · rw [if_pos h0, h0, b32_rndMag_zero]
  · rw [if_neg h0, if_neg]
    have h1 := (abs_le.mp (b32_rndMag_close a k ha hk hlt)).2
    have h2 : (2 : ℚ) ^ (k - 24) ≤ (2 : ℚ) ^ (k + 1) :=
      zpow_le_zpow_right₀ (by norm_num) (by omega)
    have h3 : (2 : ℚ) ^ (k + 1) ≤ (2 : ℚ) ^ (127 : Int) :=
      zpow_le_zpow_right₀ (by norm_num) (by omega)
    have h4 : (2 : ℚ) ^ (128 : Int) = 2 * (2 : ℚ) ^ (127 : Int) := by norm_num
    rw [not_le, h4]
    linarith

theorem b32_literals :
    B32.ofRat 0 = B32.fin false 0 ∧ B32.ofRat 1 = B32.fin false 1 ∧
      B32.ofRat 255 = B32.fin false 255 ∧ B32.ofRat (5 / 10) = B32.fin false (1 / 2) := by
  decide!

/-- One channel of `Pixel::from_color`: for a number `x` in `[0, 1]` the conversion
is defined and yields the integer part of the rounded `x * 255 + 0.5`, a byte
within `1/2 + 2^-16` of `255 x`. -/
theorem b32_to_byte_channel (x : B32) (hv : B32.valid x = true)
    (h0 : B32.le (B32.ofRat 0) x = true) (h1 : B32.le x (B32.ofRat 1) = true) :
    ∃ n, B32.to_byte (B32.add (B32.mul x (B32.ofRat 255)) (B32.ofRat (5 / 10))) = some n ∧
      n = ⌊B32.toRat (B32.add (B32.mul x (B32.ofRat 255)) (B32.ofRat (5 / 10)))⌋.toNat ∧
      n ≤ 255 ∧ |(n : ℚ) - 255 * B32.toRat x| ≤ 1 / 2 + 1 / 65536 := by
  obtain ⟨l0, l1, l255, lhalf⟩ := b32_literals
  rw [l0] at h0
  rw [l1] at h1
  rw [l255, lhalf]
  cases x with
  | nan => simp [B32.le] at h0
  | inf s => cases s <;> simp [B32.le] at h0 h1
  | fin s a =>
    simp only [B32.valid, Bool.and_eq_true, decide_eq_true_eq] at hv
    have ha := hv.1
    simp only [B32.le, decide_eq_true_eq] at h0 h1
    -- the value of the channel
    have hval : 0 ≤ B32.val s a ∧ B32.val s a ≤ 1 ∧ B32.val s a = a := by
      cases s
      · simp only [B32.val] at h0 h1 ⊢
        simp at h0 h1 ⊢
        exact ⟨h0, h1⟩
      · simp only [B32.val] at h0 h1 ⊢
        simp at h0 h1 ⊢
        have : a = 0 := le_antisymm (by linarith) ha
        subst this
        simp
    obtain ⟨hv0, hv1, hva⟩ := hval
    rw [hva] at hv0 hv1
    -- the product
    have hp1 : a * 255 < (2 : ℚ) ^ ((7 : Int) + 1) := by norm_num; linarith
    have hp0 : 0 ≤ a * 255 := by positivity
    have hmul : B32.mul (B32.fin s a) (B32.fin false 255)
        = B32.fin s (B32.rndMag (a * 255)) := by
      simp only [B32.mul, Bool.xor_false]
      exact b32_rnd_small s (a * 255) 7 hp0 (by norm_num) (by norm_num) hp1
    have hpc := abs_le.mp (b32_rndMag_close (a * 255) 7 hp0 (by norm_num) hp1)
    have hpn := b32_rndMag_nonneg (a * 255) hp0
    have e17 : (2 : ℚ) ^ ((7 : Int) - 24) = 1 / 131072 := by norm_num
    rw [e17] at hpc
    -- the sum
    have hpv : B32.val s (B32.rndMag (a * 255)) = B32.rndMag (a * 255) := by
      cases s
      · simp [B32.val]
      · have : a = 0 := by
          simp only [B32.val] at hva
          simp at hva
          linarith
        subst this
        simp [B32.val, b32_rndMag_zero]
    have hs0 : 0 < B32.rndMag (a * 255) + 1 / 2 := by linarith
    have hs1 : B32.rndMag (a * 255) + 1 / 2 < (2 : ℚ) ^ ((7 : Int) + 1) := by
      norm_num
      linarith
    have hadd : B32.add (B32.fin s (B32.rndMag (a * 255))) (B32.fin false (1 / 2))
        = B32.fin false (B32.rndMag (B32.rndMag (a * 255) + 1 / 2)) := by
      simp only [B32.add, hpv]
      have hv2 : B32.val false (1 / 2) = 1 / 2 := by simp [B32.val]
      rw [hv2, if_neg (ne_of_gt hs0), abs_of_pos hs0]
      have : decide (B32.rndMag (a * 255) + 1 / 2 < 0) = false := by
        simp only [decide_eq_false_iff_not, not_lt]
        exact hs0.le
      rw [this]
      exact b32_rnd_small false _ 7 hs0.le (by norm_num) (by norm_num) hs1
    have hqc := abs_le.mp (b32_rndMag_close (B32.rndMag (a * 255) + 1 / 2) 7 hs0.le
      (by norm_num) hs1)
    have hqn := b32_rndMag_nonneg (B32.rndMag (a * 255) + 1 / 2) hs0.le
    rw [e17] at hqc
    rw [hmul, hadd]
    have hq256 : B32.rndMag (B32.rndMag (a * 255) + 1 / 2) < 256 := by linarith
    have hfl0 : 0 ≤ ⌊B32.rndMag (B32.rndMag (a * 255) + 1 / 2)⌋ := Int.floor_nonneg.mpr hqn
    have hfl1 : ⌊B32.rndMag (B32.rndMag (a * 255) + 1 / 2)⌋ < 256 :=
      Int.floor_lt.mpr (by exact_mod_cast hq256)
    have hfle := Int.floor_le (B32.rndMag (B32.rndMag (a * 255) + 1 / 2))
    have hflt := Int.lt_floor_add_one (B32.rndMag (B32.rndMag (a * 255) + 1 / 2))
    have hcast : ((⌊B32.rndMag (B32.rndMag (a * 255) + 1 / 2)⌋.toNat : Nat) : ℚ)
        = (⌊B32.rndMag (B32.rndMag (a * 255) + 1 / 2)⌋ : ℚ) := by
      have : ((⌊B32.rndMag (B32.rndMag (a * 255) + 1 / 2)⌋.toNat : Nat) : Int)
          = ⌊B32.rndMag (B32.rndMag (a * 255) + 1 / 2)⌋ := Int.toNat_of_nonneg hfl0
      exact_mod_cast this
    have htr : B32.toRat (B32.fin false (B32.rndMag (B32.rndMag (a * 255) + 1 / 2)))
        = B32.rndMag (B32.rndMag (a * 255) + 1 / 2) := by
      simp [B32.toRat, B32.val]
    have hta : B32.toRat (B32.fin s a) = a := hva
    rw [htr, hta]
    refine ⟨⌊B32.rndMag (B32.rndMag (a * 255) + 1 / 2)⌋.toNat, ?_, rfl, ?_, ?_⟩
    · simp only [B32.to_byte, if_pos hq256]
      simp
    · omega
    · rw [hcast, abs_le]
      constructor <;> linarith

end Pixel32

namespace Binary32

/-- C13, as amended: for every colour whose channels are binary32 numbers in
`[0, 1]`, `Pixel::from_color` stores in `r`, `g`, `b` the integer parts of
`x * 255 + 0.5`, `y * 255 + 0.5`, `z * 255 + 0.5` with the product and the sum
rounded to binary32; each is a byte in `0..255` within `1/2 + 2^-16` of `255 x`,
`255 y`, `255 z`; the bytes lie in the order `b`, `g`, `r`; and the colour
`(1, 0, 0)` gives the bytes `(0, 0, 255)`. -/
theorem from_color_bytes (v : Vec3 B32)
    (hvx : B32.valid v.x = true) (hvy : B32.valid v.y = true) (hvz : B32.valid v.z = true)
    (hx : B32.le (B32.ofRat 0) v.x = true ∧ B32.le v.x (B32.ofRat 1) = true)
    (hy : B32.le (B32.ofRat 0) v.y = true ∧ B32.le v.y (B32.ofRat 1) = true)
    (hz : B32.le (B32.ofRat 0) v.z = true ∧ B32.le v.z (B32.ofRat 1) = true) :
    (∃ p, from_color v = some p ∧
      p.r = ⌊B32.toRat (B32.add (B32.mul v.x (B32.ofRat 255)) (B32.ofRat (5 / 10)))⌋.toNat ∧
      p.g = ⌊B32.toRat (B32.add (B32.mul v.y (B32.ofRat 255)) (B32.ofRat (5 / 10)))⌋.toNat ∧
      p.b = ⌊B32.toRat (B32.add (B32.mul v.z (B32.ofRat 255)) (B32.ofRat (5 / 10)))⌋.toNat ∧
      p.r ≤ 255 ∧ p.g ≤ 255 ∧ p.b ≤ 255 ∧
      |(p.r : ℚ) - 255 * B32.toRat v.x| ≤ 1 / 2 + 1 / 65536 ∧
      |(p.g : ℚ) - 255 * B32.toRat v.y| ≤ 1 / 2 + 1 / 65536 ∧
      |(p.b : ℚ) - 255 * B32.toRat v.z| ≤ 1 / 2 + 1 / 65536 ∧
      Pixel.bytes p = [p.b, p.g, p.r]) ∧
    (from_color ⟨B32.ofRat 1, B32.ofRat 0, B32.ofRat 0⟩).map Pixel.bytes = some [0, 0, 255] := by
  obtain ⟨r, hr, hr1, hr2, hr3⟩ := b32_to_byte_channel v.x hvx hx.1 hx.2
  obtain ⟨g, hg, hg1, hg2, hg3⟩ := b32_to_byte_channel v.y hvy hy.1 hy.2
  obtain ⟨b, hb, hb1, hb2, hb3⟩ := b32_to_byte_channel v.z hvz hz.1 hz.2
  refine ⟨⟨⟨b, g, r⟩, ?_, hr1, hg1, hb1, hr2, hg2, hb2, hr3, hg3, hb3, rfl⟩, by decide!⟩
  simp only [from_color, hr, hg, hb]

end Binary32

/-! ## Binary32: the singular operations -/

section Sign32

theorem b32_zero_eq : B32.ofRat 0 = B32.fin false 0 := by decide!

/-- A rounded result with the positive sign is not negative. -/
theorem b32_rnd_not_neg (a : ℚ) (ha : 0 ≤ a) :
    B32.lt (B32.rnd false a) (B32.fin false 0) = false := by
  have h := b32_rndMag_nonneg a ha
  unfold B32.rnd
  split_ifs
  · simp [B32.lt]
  · simp [B32.lt]
  · simp only [B32.lt, B32.val, Bool.false_eq_true, if_false, decide_eq_false_iff_not, not_lt]
    exact h

/-- A square is not negative. -/
theorem b32_mul_self_not_neg (x : B32) : B32.lt (B32.mul x x) (B32.fin false 0) = false := by
  cases x with
  | nan => rfl
  | inf s => cases s <;> rfl
  | fin s a =>
    simp only [B32.mul, Bool.xor_self]
    exact b32_rnd_not_neg _ (mul_self_nonneg a)

/-- A sum of two numbers that are not negative is not negative. -/
theorem b32_add_not_neg (x y : B32) (hx : B32.lt x (B32.fin false 0) = false)
    (hy : B32.lt y (B32.fin false 0) = false) :
    B32.lt (B32.add x y) (B32.fin false 0) = false := by
  cases x with
  | nan => simp [B32.add, B32.lt]
  | inf s =>
    cases s
    · cases y with
      | nan => rfl
      | inf t => cases t <;> simp_all [B32.add, B32.lt]
      | fin t b => rfl
    · simp [B32.lt] at hx
  | fin s a =>
    cases y with
    | nan => rfl
    | inf t =>
      cases t
      · rfl
      · simp [B32.lt] at hy
    | fin t b =>
      simp only [B32.lt, decide_eq_false_iff_not, not_lt] at hx hy
      have hx0 : 0 ≤ B32.val s a := by simpa [B32.val] using hx
      have hy0 : 0 ≤ B32.val t b := by simpa [B32.val] using hy
      simp only [B32.add]
      by_cases hv : B32.val s a + B32.val t b = 0
      · rw [if_pos hv]
        simp [B32.lt, B32.val]
      · rw [if_neg hv]
        have hpos : 0 < B32.val s a + B32.val t b := lt_of_le_of_ne (by linarith) (Ne.symm hv)
        have hd : decide (B32.val s a + B32.val t b < 0) = false := by
          simp only [decide_eq_false_iff_not, not_lt]
          exact hpos.le
        rw [hd]
        exact b32_rnd_not_neg _ (abs_nonneg _)

end Sign32

namespace Binary32

/-- The squared length `dot(v, v)` is not negative. -/
theorem dot_self_not_neg (v : Vec3 B32) : B32.lt (dot v v) (B32.ofRat 0) = false := by
  rw [b32_zero_eq]
  unfold dot
  exact b32_add_not_neg _ _
    (b32_add_not_neg _ _ (b32_mul_self_not_neg v.x) (b32_mul_self_not_neg v.y))
    (b32_mul_self_not_neg v.z)

theorem length_checked_eq (v : Vec3 B32) : length_checked v = some (length v) := by
  unfold length_checked checked_sqrt length
  rw [dot_self_not_neg]
  rfl

/-- The normalisation takes no square root of a negative number; it divides by zero
exactly when `sqrt(dot(v, v))` compares equal to zero. -/
theorem normalize_checked_eq (v : Vec3 B32) :
    normalize_checked v
      = if B32.eq (B32.sqrt (dot v v)) (B32.ofRat 0) then none else some (normalize v) := by
  unfold normalize_checked checked_sqrt checked_div normalize
  rw [dot_self_not_neg]
  simp only [Bool.false_eq_true, if_false]
  split_ifs <;> rfl

/-- Past the guard `fabs(deno) <= .00001f` the divisor is not zero. -/
theorem deno_ne_zero (deno : B32)
    (h : B32.le (B32.abs deno) (B32.ofRat (1 / 100000)) = false) :
    B32.eq deno (B32.ofRat 0) = false := by
  have e : B32.ofRat (1 / 100000) = B32.fin false (2748779 / 274877906944) := by decide!
  rw [e] at h
  rw [b32_zero_eq]
  cases deno with
  | nan => rfl
  | inf s => rfl
  | fin s a =>
    simp only [B32.abs, B32.le, B32.val, decide_eq_false_iff_not, not_le] at h
    simp only [B32.eq, B32.val, decide_eq_false_iff_not]
    simp at h ⊢
    intro h0
    cases s <;> simp at h0 <;> rw [h0] at h <;> norm_num at h

end Binary32

namespace Binary32

theorem hittest_checked_sphere (center : Vec3 B32) (radius : B32) (color : Vec3 B32)
    (reflectance : B32) (start dir : Vec3 B32) :
    hittest_checked ⟨Shape.as_sphere center radius, color, reflectance⟩ start dir
      = match hittest ⟨Shape.as_sphere center radius, color, reflectance⟩ start dir with
        | none => some none
        | some h =>
          if B32.eq (B32.sqrt (dot (vsub center h.point) (vsub center h.point))) (B32.ofRat 0)
          then none else some (some h) := by
  simp only [hittest_checked, hittest, checked_sqrt]
  by_cases h1 : B32.lt (B32.add (B32.sub (B32.mul (dot dir (vsub center start))
      (dot dir (vsub center start))) (dot (vsub center start) (vsub center start)))
      (B32.mul radius radius)) (B32.ofRat 0) = true
  · simp only [h1, if_true]
  · simp only [h1]
    by_cases h2 : B32.lt (B32.sub (dot dir (vsub center start)) (B32.sqrt (B32.add (B32.sub
        (B32.mul (dot dir (vsub center start)) (dot dir (vsub center start)))
        (dot (vsub center start) (vsub center start))) (B32.mul radius radius))))
        (B32.ofRat 0) = true
    · simp only [h2, if_true, Bool.false_eq_true, if_false]
    · simp only [h2, Bool.false_eq_true, if_false, normalize_checked_eq]
      split_ifs <;> rfl

theorem hittest_checked_plane (p n color : Vec3 B32) (reflectance : B32)
    (start dir : Vec3 B32) :
    hittest_checked ⟨Shape.as_plane p n, color, reflectance⟩ start dir
      = some (hittest ⟨Shape.as_plane p n, color, reflectance⟩ start dir) := by
  simp only [hittest_checked, hittest]
  by_cases h1 : B32.le (B32.abs (dot dir n)) (B32.ofRat (1 / 100000)) = true
  · simp only [h1, if_true]
  · have h1f : B32.le (B32.abs (dot dir n)) (B32.ofRat (1 / 100000)) = false := by
      simpa using h1
    simp only [h1f, Bool.false_eq_true, if_false, checked_div, deno_ne_zero _ h1f,
      length_checked_eq]
    split_ifs <;> rfl

theorem lighting_equation_checked_eq (pow : B32 → B32 → B32) (color view n : Vec3 B32) :
    lighting_equation_checked pow color view n
      = if B32.eq (B32.sqrt (dot (vadd view LIGHT_DIR) (vadd view LIGHT_DIR))) (B32.ofRat 0)
        then none else some (lighting_equation pow color view n) := by
  simp only [lighting_equation_checked, lighting_equation, normalize_checked_eq]
  split_ifs <;> rfl

/-- C15, as amended: `hittest` and `lighting_equation` take no square root of a
negative number, and the division of the plane branch never has a zero divisor:
on a plane `hittest` evaluates no singular operation at all.  The two
normalisations are not guarded: `hittest` divides by zero exactly when it reports a
hit on a sphere for which `sqrt(dot(center - point, center - point))` is zero, and
`lighting_equation` exactly when `sqrt(dot(v + lightDir, v + lightDir))` is zero
for the view direction `v`. -/
theorem hittest_lighting_defined (pow : B32 → B32 → B32) (color : Vec3 B32)
    (reflectance : B32) (start dir view n : Vec3 B32) :
    (∀ p pn, hittest_checked ⟨Shape.as_plane p pn, color, reflectance⟩ start dir
      = some (hittest ⟨Shape.as_plane p pn, color, reflectance⟩ start dir)) ∧
    (∀ center radius,
      hittest_checked ⟨Shape.as_sphere center radius, color, reflectance⟩ start dir
        = match hittest ⟨Shape.as_sphere center radius, color, reflectance⟩ start dir with
          | none => some none
          | some h =>
            if B32.eq (B32.sqrt (dot (vsub center h.point) (vsub center h.point)))
              (B32.ofRat 0)
            then none else some (some h)) ∧
    lighting_equation_checked pow color view n
      = if B32.eq (B32.sqrt (dot (vadd view LIGHT_DIR) (vadd view LIGHT_DIR))) (B32.ofRat 0)
        then none else some (lighting_equation pow color view n) :=
  ⟨fun p pn => hittest_checked_plane p pn color reflectance start dir,
    fun center radius => hittest_checked_sphere center radius color reflectance start dir,
    lighting_equation_checked_eq pow color view n⟩

end Binary32

/-! ## Binary32: rounding is idempotent -/

section Idempotent32

theorem b32_roundHalfEven_int (n : Int) : B32.roundHalfEven (n : ℚ) = n := by
  unfold B32.roundHalfEven
  simp

/-- A magnitude `q * 2 ^ e` with an integer `q` is its own rounding when `e` is the
exponent of its last place or above it. -/
theorem b32_rndMag_of_int (r : ℚ) (n : Int) (h : r / (2 : ℚ) ^ B32.ulpExp r = n) :
    B32.rndMag r = r := by
  unfold B32.rndMag
  rw [h, b32_roundHalfEven_int, ← h]
  field_simp

/-- The multiples `M * 2 ^ e` with `M ≤ 2 ^ 24` and `e ≥ -149` are their own
roundings. -/
theorem b32_rndMag_of_grid (M : Nat) (e : Int) (he : -149 ≤ e) (hM : M ≤ 2 ^ 24) :
    B32.rndMag ((M : ℚ) * (2 : ℚ) ^ e) = (M : ℚ) * (2 : ℚ) ^ e := by
  rcases Nat.eq_zero_or_pos M with h0 | hpos
  · subst h0
    simp [b32_rndMag_zero]
  have hMq : (0 : ℚ) < M := by exact_mod_cast hpos
  have hr : (0 : ℚ) < (M : ℚ) * (2 : ℚ) ^ e := by positivity
  obtain ⟨hlo, _⟩ := b32_ilog2_spec _ hr
  have hMle : (M : ℚ) ≤ (2 : ℚ) ^ (24 : Int) := by
    have h24 : (2 : ℚ) ^ (24 : Int) = (2 : ℚ) ^ (24 : Nat) := by norm_num
    rw [h24]
    exact_mod_cast hM
  have hle : (M : ℚ) * (2 : ℚ) ^ e ≤ (2 : ℚ) ^ (e + 24) := by
    rw [zpow_add₀ (by norm_num : (2 : ℚ) ≠ 0), mul_comm ((2 : ℚ) ^ e)]
    exact mul_le_mul_of_nonneg_right hMle (by positivity)
  have hL : B32.ilog2 ((M : ℚ) * (2 : ℚ) ^ e) ≤ e + 24 :=
    (zpow_le_zpow_iff_right₀ (by norm_num : (1 : ℚ) < 2)).mp (le_trans hlo hle)
  by_cases hcase : B32.ilog2 ((M : ℚ) * (2 : ℚ) ^ e) ≤ e + 23
  · have hu : B32.ulpExp ((M : ℚ) * (2 : ℚ) ^ e) ≤ e := by
      unfold B32.ulpExp
      omega
    obtain ⟨k, hk⟩ := Int.eq_ofNat_of_zero_le (sub_nonneg.mpr hu)
    apply b32_rndMag_of_int _ ((M * 2 ^ k : Nat) : Int)
    have e1 : (2 : ℚ) ^ e = (2 : ℚ) ^ (k : Int) * (2 : ℚ) ^ B32.ulpExp ((M : ℚ) * (2 : ℚ) ^ e) := by
      rw [← zpow_add₀ (by norm_num : (2 : ℚ) ≠ 0), ← hk]
      congr 1
      ring
    rw [mul_div_assoc]
    nth_rewrite 1 [e1]
    rw [mul_div_assoc, div_self (by positivity), mul_one, zpow_natCast]
    push_cast
    ring
  · have hLeq : B32.ilog2 ((M : ℚ) * (2 : ℚ) ^ e) = e + 24 := by omega
    rw [hLeq] at hlo
    have hM2 : (2 : ℚ) ^ (24 : Int) ≤ (M : ℚ) := by
      rw [zpow_add₀ (by norm_num : (2 : ℚ) ≠ 0), mul_comm] at hlo
      exact le_of_mul_le_mul_right hlo (by positivity)
    have hMeq : (M : ℚ) = (2 : ℚ) ^ (24 : Int) := le_antisymm hMle hM2
    have hu : B32.ulpExp ((M : ℚ) * (2 : ℚ) ^ e) = e + 1 := by
      unfold B32.ulpExp
      omega
    apply b32_rndMag_of_int _ ((2 ^ 23 : Nat) : Int)
    rw [hu, hMeq, zpow_add₀ (by norm_num : (2 : ℚ) ≠ 0)]
    field_simp
    norm_num
    ring

/-- A rounded magnitude is a multiple `M * 2 ^ e` with `M ≤ 2 ^ 24` and `e ≥ -149`. -/
theorem b32_rndMag_grid (a : ℚ) (ha : 0 < a) :
    ∃ M : Nat, M ≤ 2 ^ 24 ∧ -149 ≤ B32.ulpExp a ∧
      B32.rndMag a = (M : ℚ) * (2 : ℚ) ^ B32.ulpExp a := by
  have hp : (0 : ℚ) < (2 : ℚ) ^ B32.ulpExp a := by positivity
  have hx : 0 ≤ a / (2 : ℚ) ^ B32.ulpExp a := by positivity
  have hn := b32_roundHalfEven_nonneg _ hx
  obtain ⟨M, hM⟩ := Int.eq_ofNat_of_zero_le hn
  have he : -149 ≤ B32.ulpExp a := by
    unfold B32.ulpExp
    omega
  refine ⟨M, ?_, he, ?_⟩
  · obtain ⟨_, hhi⟩ := b32_ilog2_spec a ha
    have hge : B32.ilog2 a + 1 ≤ B32.ulpExp a + 24 := by
      unfold B32.ulpExp
      omega
    have h1 : a < (2 : ℚ) ^ (B32.ulpExp a + 24) :=
      lt_of_lt_of_le hhi (zpow_le_zpow_right₀ (by norm_num) hge)
    have h2 : a / (2 : ℚ) ^ B32.ulpExp a < (2 : ℚ) ^ (24 : Int) := by
      rw [div_lt_iff₀ hp, ← zpow_add₀ (by norm_num : (2 : ℚ) ≠ 0), add_comm]
      exact h1
    have h3 := (abs_le.mp (b32_roundHalfEven_err (a / (2 : ℚ) ^ B32.ulpExp a))).2
    rw [hM] at h3
    have h4 : (M : ℚ) < (2 : ℚ) ^ (24 : Int) + 1 / 2 := by
      have : ((M : Int) : ℚ) = (M : ℚ) := by norm_cast
      rw [this] at h3
      linarith
    have h5 : (M : ℚ) < ((2 ^ 24 + 1 : Nat) : ℚ) := by
      push_cast
      have : ((2 : ℚ) ^ (24 : Int)) = (2 : ℚ) ^ 24 := by norm_num
      rw [this] at h4
      linarith
    have h6 : M < 2 ^ 24 + 1 := by exact_mod_cast h5
    omega
  · unfold B32.rndMag
    rw [hM]
    norm_cast

theorem b32_rndMag_idem (a : ℚ) (ha : 0 ≤ a) : B32.rndMag (B32.rndMag a) = B32.rndMag a := by
  rcases eq_or_lt_of_le ha with h0 | hpos
  · rw [← h0, b32_rndMag_zero, b32_rndMag_zero]
  · obtain ⟨M, hM, he, hr⟩ := b32_rndMag_grid a hpos
    rw [hr]
    exact b32_rndMag_of_grid M _ he hM

/-- A rounded result is a valid number. -/
theorem b32_rnd_valid (s : Bool) (a : ℚ) (ha : 0 ≤ a) : B32.valid (B32.rnd s a) = true := by
  have hn := b32_rndMag_nonneg a ha
  have hi := b32_rndMag_idem a ha
  unfold B32.rnd
  split_ifs with h0 h1
  · simp [B32.valid, B32.rnd]
  · rfl
  · simp only [B32.valid, Bool.and_eq_true, decide_eq_true_eq]
    refine ⟨hn, ?_⟩
    unfold B32.rnd
    rw [hi]
    split_ifs with h2
    · rw [h2]
    · rfl

/-- A sum is a valid number. -/
theorem b32_add_valid (x y : B32) : B32.valid (B32.add x y) = true := by
  cases x with
  | nan => simp [B32.add, B32.valid]
  | inf s =>
    cases y with
    | nan => rfl
    | inf t =>
      simp only [B32.add]
      split_ifs <;> rfl
    | fin t b => rfl
  | fin s a =>
    cases y with
    | nan => rfl
    | inf t => rfl
    | fin t b =>
      simp only [B32.add]
      split_ifs
      · simp [B32.valid, B32.rnd]
      · exact b32_rnd_valid _ _ (abs_nonneg _)

end Idempotent32

/-! ## Binary32: the sphere branch -/

section Tangent32

/-- Adding a zero to a valid number that is not negative gives a number equal to
it. -/
theorem b32_add_zero (d : B32) (u : Bool) (hv : B32.valid d = true)
    (hd : B32.le (B32.fin false 0) d = true) :
    B32.eq (B32.add d (B32.fin u 0)) d = true ∧
      B32.lt (B32.add d (B32.fin u 0)) (B32.fin false 0) = false := by
  cases d with
  | nan => simp [B32.le] at hd
  | inf t =>
    cases t
    · simp [B32.add, B32.eq, B32.lt]
    · simp [B32.le] at hd
  | fin t b =>
    simp only [B32.valid, Bool.and_eq_true, decide_eq_true_eq] at hv
    obtain ⟨hb, hrnd⟩ := hv
    simp only [B32.le, decide_eq_true_eq] at hd
    have hd0 : 0 ≤ B32.val t b := by simpa [B32.val] using hd
    have hu0 : B32.val u 0 = 0 := by cases u <;> simp [B32.val]
    simp only [B32.add, hu0, add_zero]
    by_cases hv0 : B32.val t b = 0
    · rw [if_pos hv0]
      simp only [B32.eq, B32.lt, decide_eq_true_eq, decide_eq_false_iff_not, not_lt, hv0]
      constructor <;> cases (t && u) <;> simp [B32.val]
    · rw [if_neg hv0]
      have hpos : 0 < B32.val t b := lt_of_le_of_ne hd0 (Ne.symm hv0)
      have ht : t = false := by
        cases t
        · rfl
        · simp only [B32.val, if_true] at hpos
          linarith
      subst ht
      have hvb : B32.val false b = b := by simp [B32.val]
      rw [hvb] at hpos ⊢
      have hdec : decide (b < 0) = false := by simpa using hpos.le
      rw [hdec, abs_of_pos hpos, hrnd]
      simp only [B32.eq, B32.lt, decide_eq_true_eq, decide_eq_false_iff_not, not_lt]
      simp [B32.val, hpos.le]

/-- A number that compares equal to zero is a zero. -/
theorem b32_eq_zero (x : B32) (h : B32.eq x (B32.fin false 0) = true) :
    ∃ s, x = B32.fin s 0 := by
  cases x with
  | nan => simp [B32.eq] at h
  | inf s => simp [B32.eq] at h
  | fin s a =>
    refine ⟨s, ?_⟩
    simp only [B32.eq, decide_eq_true_eq] at h
    cases s <;> simp [B32.val] at h <;> rw [h]

/-- A number that is not below zero is NaN, or zero is at most it. -/
theorem b32_not_lt_zero (x : B32) (h : B32.lt x (B32.fin false 0) = false) :
    x = B32.nan ∨ B32.le (B32.fin false 0) x = true := by
  cases x with
  | nan => exact Or.inl rfl
  | inf s =>
    cases s
    · exact Or.inr rfl
    · simp [B32.lt] at h
  | fin s a =>
    right
    simpa [B32.lt, B32.le] using h

end Tangent32

namespace Binary32

/-- The sphere branch of `hittest` in terms of the named values. -/
theorem hittest_sphere_eq (center : Vec3 B32) (radius : B32) (color : Vec3 B32)
    (reflectance : B32) (start dir : Vec3 B32) :
    hittest ⟨Shape.as_sphere center radius, color, reflectance⟩ start dir
      = if B32.lt (sphere_disc center radius start dir) (B32.ofRat 0) then none
        else if B32.lt (B32.sub (sphere_d center start dir)
            (B32.sqrt (sphere_disc center radius start dir))) (B32.ofRat 0) then none
        else some ⟨B32.sub (sphere_d center start dir)
            (B32.sqrt (sphere_disc center radius start dir)),
          vadd start (vscale dir (B32.sub (sphere_d center start dir)
            (B32.sqrt (sphere_disc center radius start dir)))),
          normalize (vsub center (vadd start (vscale dir (B32.sub (sphere_d center start dir)
            (B32.sqrt (sphere_disc center radius start dir))))))⟩ := rfl

theorem sphere_d_valid (center start dir : Vec3 B32) :
    B32.valid (sphere_d center start dir) = true := by
  unfold sphere_d dot
  exact b32_add_valid _ _

/-- C8, as amended: for every sphere and every ray (of any direction) whose computed
discriminant `disc = d*d - dot(T,T) + radius*radius` compares equal to zero and
whose computed `d = dot(direction, T)` is not negative, `hittest` reports a hit, at
a distance equal to `d`, with `point = origin + dist * direction` and
`normal = normalize(center - point)` as computed. -/
theorem hittest_sphere_tangent (center : Vec3 B32) (radius : B32) (color : Vec3 B32)
    (reflectance : B32) (start dir : Vec3 B32)
    (hdisc : B32.eq (sphere_disc center radius start dir) (B32.ofRat 0) = true)
    (hd : B32.le (B32.ofRat 0) (sphere_d center start dir) = true) :
    ∃ h, hittest ⟨Shape.as_sphere center radius, color, reflectance⟩ start dir = some h ∧
      B32.eq h.dist (sphere_d center start dir) = true ∧
      h.point = vadd start (vscale dir h.dist) ∧
      h.normal = normalize (vsub center h.point) := by
  rw [b32_zero_eq] at hdisc hd
  obtain ⟨s, hs⟩ := b32_eq_zero _ hdisc
  obtain ⟨h1, h2⟩ := b32_add_zero _ (!s) (sphere_d_valid center start dir) hd
  have hsqrt : B32.sqrt (B32.fin s 0) = B32.fin s 0 := by simp [B32.sqrt]
  have hlt : B32.lt (B32.fin s 0) (B32.fin false 0) = false := by
    cases s <;> simp [B32.lt, B32.val]
  have hsub : B32.sub (sphere_d center start dir) (B32.fin s 0)
      = B32.add (sphere_d center start dir) (B32.fin (!s) 0) := rfl
  rw [hittest_sphere_eq]
  simp only [hs, b32_zero_eq, hlt, hsqrt, hsub, h2, Bool.false_eq_true, if_false]
  exact ⟨_, rfl, h1, rfl, rfl⟩

/-- C19, as amended: for every sphere and every ray, whenever `hittest` reports a
hit, the reported `dist` is not negative (`0 <= dist`, or `dist` is NaN), the
reported point is `origin + dist * direction` and the reported normal is
`normalize(center - point)`, as computed. -/
theorem hittest_sphere_hit (center : Vec3 B32) (radius : B32) (color : Vec3 B32)
    (reflectance : B32) (start dir : Vec3 B32) (h : Hit B32)
    (hhit : hittest ⟨Shape.as_sphere center radius, color, reflectance⟩ start dir = some h) :
    (h.dist = B32.nan ∨ B32.le (B32.ofRat 0) h.dist = true) ∧
      h.dist = B32.sub (sphere_d center start dir)
        (B32.sqrt (sphere_disc center radius start dir)) ∧
      h.point = vadd start (vscale dir h.dist) ∧
      h.normal = normalize (vsub center h.point) := by
  rw [hittest_sphere_eq] at hhit
  split_ifs at hhit with h1 h2
  simp only [Option.some.injEq] at hhit
  subst hhit
  rw [b32_zero_eq] at h2 ⊢
  exact ⟨b32_not_lt_zero _ (by simpa using h2), rfl, rfl, rfl⟩

end Binary32

/-! ## Binary32: rays that point away from the centre -/

section Away32

end Away32

namespace Binary32

end Binary32

/-! ## Binary32: a trace with an undefined conversion -/

namespace Binary32

end Binary32

/-! ## Binary32: instances on concrete inputs -/

namespace Binary32

/-- C3, counterexample: the scene is the one plane `far_plane` through
`(0, 1e20, 0)` with normal `(0, 1, 0)`, the ray starts at the origin in direction
`(0, 1, 0)`, and no object is excluded.  `hittest` reports a hit on the plane, with
the distance `+infinity` (the square of `1e20` overflows), and
`hittest_all_objects` returns nothing. -/
theorem hittest_all_objects_drops_infinite_distance :
    hittest far_plane (vec 0 0 0) (vec 0 1 0)
        = some ⟨B32.inf false, vec 0 100000000000000000000 0, vec 0 1 0⟩ ∧
      hittest_all_objects [far_plane] none (vec 0 0 0) (vec 0 1 0) = none ∧
      ¬ (hittest_all_objects [far_plane] none (vec 0 0 0) (vec 0 1 0) = none ↔
        ∀ i o, [far_plane][i]? = some o → (none : Option Nat) ≠ some i →
          hittest o (vec 0 0 0) (vec 0 1 0) = none) := by
  have h1 : hittest far_plane (vec 0 0 0) (vec 0 1 0)
      = some ⟨B32.inf false, vec 0 100000000000000000000 0, vec 0 1 0⟩ := by decide!
  have h2 : hittest_all_objects [far_plane] none (vec 0 0 0) (vec 0 1 0) = none := by decide!
  refine ⟨h1, h2, fun hiff => ?_⟩
  have h3 := hiff.mp h2 0 far_plane rfl (by simp)
  rw [h1] at h3
  simp at h3

/-- C13, counterexample: the binary32 number nearest to `0.0019607842` lies in
`[0, 1]`, and `255` times it is below `1/2`, so that `round(255 x)` is `0`; the byte
stored by `Pixel::from_color` is `1`. -/
theorem from_color_rounds_up :
    B32.valid (B32.ofRat 0.0019607842) = true ∧
      B32.le (B32.ofRat 0) (B32.ofRat 0.0019607842) = true ∧
      B32.le (B32.ofRat 0.0019607842) (B32.ofRat 1) = true ∧
      ⌊255 * B32.toRat (B32.ofRat 0.0019607842) + 1 / 2⌋ = 0 ∧
      from_color ⟨B32.ofRat 0.0019607842, B32.ofRat 0.0019607842, B32.ofRat 0.0019607842⟩
        = some ⟨1, 1, 1⟩ := by
  decide!

theorem from_color_bytes_witness :
    B32.valid (B32.ofRat (1 / 2)) = true ∧
      B32.le (B32.ofRat 0) (B32.ofRat (1 / 2)) = true ∧
      B32.le (B32.ofRat (1 / 2)) (B32.ofRat 1) = true ∧
      from_color ⟨B32.ofRat (1 / 2), B32.ofRat (1 / 2), B32.ofRat (1 / 2)⟩
        = some ⟨128, 128, 128⟩ ∧
      ((∃ p, from_color ⟨B32.ofRat (1 / 2), B32.ofRat (1 / 2), B32.ofRat (1 / 2)⟩ = some p ∧
        p.r = ⌊B32.toRat (B32.add (B32.mul (B32.ofRat (1 / 2)) (B32.ofRat 255))
          (B32.ofRat (5 / 10)))⌋.toNat ∧
        p.g = ⌊B32.toRat (B32.add (B32.mul (B32.ofRat (1 / 2)) (B32.ofRat 255))
          (B32.ofRat (5 / 10)))⌋.toNat ∧
        p.b = ⌊B32.toRat (B32.add (B32.mul (B32.ofRat (1 / 2)) (B32.ofRat 255))
          (B32.ofRat (5 / 10)))⌋.toNat ∧
        p.r ≤ 255 ∧ p.g ≤ 255 ∧ p.b ≤ 255 ∧
        |(p.r : ℚ) - 255 * B32.toRat (B32.ofRat (1 / 2))| ≤ 1 / 2 + 1 / 65536 ∧
        |(p.g : ℚ) - 255 * B32.toRat (B32.ofRat (1 / 2))| ≤ 1 / 2 + 1 / 65536 ∧
        |(p.b : ℚ) - 255 * B32.toRat (B32.ofRat (1 / 2))| ≤ 1 / 2 + 1 / 65536 ∧
        Pixel.bytes p = [p.b, p.g, p.r]) ∧
      (from_color ⟨B32.ofRat 1, B32.ofRat 0, B32.ofRat 0⟩).map Pixel.bytes
        = some [0, 0, 255]) :=
  ⟨by decide!, by decide!, by decide!, by decide!,
    from_color_bytes ⟨B32.ofRat (1 / 2), B32.ofRat (1 / 2), B32.ofRat (1 / 2)⟩
      (by decide!) (by decide!) (by decide!) ⟨by decide!, by decide!⟩
      ⟨by decide!, by decide!⟩ ⟨by decide!, by decide!⟩⟩

/-- C15, counterexample: the sphere of radius `1.5 > 0` about the origin and the ray
from `(0, 0, -1e8)` in direction `(0, 0, 1)`: the hit point rounds onto the centre
and `hittest` divides by `sqrt(0)`; and for the view direction `-LIGHT_DIR` the
function `lighting_equation` divides by `sqrt(0)`, whatever the colour and the
normal. -/
theorem hittest_lighting_divide_by_zero :
    B32.lt (B32.ofRat 0) (B32.ofRat (3 / 2)) = true ∧
      hittest_checked (grey_sphere 0 0 0 (3 / 2)) (vec 0 0 (-100000000)) (vec 0 0 1) = none ∧
      ∀ pow color n, lighting_equation_checked pow color (vneg LIGHT_DIR) n = none := by
  refine ⟨by decide!, by decide!, fun pow color n => ?_⟩
  rw [lighting_equation_checked_eq, if_pos (by decide!)]

end Binary32

/-! ## Binary32: instances of the sphere branch -/

namespace Binary32

theorem hittest_sphere_tangent_witness :
    B32.eq (sphere_disc (vec 0 1 2) (B32.ofRat 1) (vec 0 0 0) (vec 0 0 1)) (B32.ofRat 0) = true ∧
      B32.le (B32.ofRat 0) (sphere_d (vec 0 1 2) (vec 0 0 0) (vec 0 0 1)) = true ∧
      hittest (grey_sphere 0 1 2 1) (vec 0 0 0) (vec 0 0 1)
        = some ⟨B32.ofRat 2, vec 0 0 2, vec 0 1 0⟩ ∧
      ∃ h, hittest (grey_sphere 0 1 2 1) (vec 0 0 0) (vec 0 0 1) = some h ∧
        B32.eq h.dist (sphere_d (vec 0 1 2) (vec 0 0 0) (vec 0 0 1)) = true ∧
        h.point = vadd (vec 0 0 0) (vscale (vec 0 0 1) h.dist) ∧
        h.normal = normalize (vsub (vec 0 1 2) h.point) :=
  ⟨by decide!, by decide!, by decide!,
    hittest_sphere_tangent (vec 0 1 2) (B32.ofRat 1) (vec (5 / 10) (5 / 10) (5 / 10))
      (B32.ofRat (5 / 10)) (vec 0 0 0) (vec 0 0 1) (by decide!) (by decide!)⟩

/-- C8, counterexample, in three parts, each with the unit direction `(0, 0, 1)`.
The ray from the origin has a computed `disc` equal to zero for the sphere of radius
`1` about `(0, 1, -1)`, which lies behind it (`d = -1`), and `hittest` reports no
hit.  The ray from `(0, -1, -1.89)` has a computed `disc` equal to zero and
`d >= 0` for the sphere of radius `3` about `(0, 2, 2)`; `hittest` reports a hit, and
the exact squared distance of the reported point from the centre is not `9`.  The
ray from the origin is tangent in exact arithmetic (`exact_disc` is `0`) to the
sphere of radius `2.7764213` about `(0, 2.7764213, 19.160353)`, with `d >= 0`; its
computed `disc` is negative and `hittest` reports no hit. -/
theorem hittest_sphere_tangent_fails :
    (B32.eq (sphere_disc (vec 0 1 (-1)) (B32.ofRat 1) (vec 0 0 0) (vec 0 0 1)) (B32.ofRat 0)
        = true ∧
      hittest (grey_sphere 0 1 (-1) 1) (vec 0 0 0) (vec 0 0 1) = none) ∧
    (B32.eq (sphere_disc (vec 0 2 2) (B32.ofRat 3) (vec 0 (-1) (-1.89)) (vec 0 0 1))
        (B32.ofRat 0) = true ∧
      B32.le (B32.ofRat 0) (sphere_d (vec 0 2 2) (vec 0 (-1) (-1.89)) (vec 0 0 1)) = true ∧
      hittest (grey_sphere 0 2 2 3) (vec 0 (-1) (-1.89)) (vec 0 0 1)
        = some ⟨B32.ofRat 3.8899998664855957, vec 0 (-1) 1.9999998807907104,
            vec 0 1 3.973643103449831e-08⟩ ∧
      exact_dist_sq (vec 0 (-1) 1.9999998807907104) (vec 0 2 2) ≠ 9) ∧
    (exact_disc (vec 0 2.7764213 19.160353) (B32.ofRat 2.7764213) (vec 0 0 0) (vec 0 0 1) = 0 ∧
      B32.le (B32.ofRat 0) (sphere_d (vec 0 2.7764213 19.160353) (vec 0 0 0) (vec 0 0 1))
        = true ∧
      B32.lt (sphere_disc (vec 0 2.7764213 19.160353) (B32.ofRat 2.7764213) (vec 0 0 0)
        (vec 0 0 1)) (B32.ofRat 0) = true ∧
      hittest (grey_sphere 0 2.7764213 19.160353 2.7764213) (vec 0 0 0) (vec 0 0 1) = none) := by
  decide!

theorem hittest_sphere_hit_witness :
    hittest (grey_sphere 0 (10606602 / 10000000) 6 (3 / 2)) (vec 0 0 0) (vec 0 0 1)
        = some ⟨B32.ofRat 4.939339637756348, vec 0 0 4.939339637756348,
            vec 0 0.7071067690849304 0.70710688829422⟩ ∧
      ((B32.ofRat 4.939339637756348 = B32.nan ∨
          B32.le (B32.ofRat 0) (B32.ofRat 4.939339637756348) = true) ∧
        B32.ofRat 4.939339637756348
          = B32.sub (sphere_d (vec 0 (10606602 / 10000000) 6) (vec 0 0 0) (vec 0 0 1))
            (B32.sqrt (sphere_disc (vec 0 (10606602 / 10000000) 6) (B32.ofRat (3 / 2))
              (vec 0 0 0) (vec 0 0 1))) ∧
        vec 0 0 4.939339637756348
          = vadd (vec 0 0 0) (vscale (vec 0 0 1) (B32.ofRat 4.939339637756348)) ∧
        vec 0 0.7071067690849304 0.70710688829422
          = normalize (vsub (vec 0 (10606602 / 10000000) 6) (vec 0 0 4.939339637756348))) := by
  have h : hittest (grey_sphere 0 (10606602 / 10000000) 6 (3 / 2)) (vec 0 0 0) (vec 0 0 1)
      = some ⟨B32.ofRat 4.939339637756348, vec 0 0 4.939339637756348,
          vec 0 0.7071067690849304 0.70710688829422⟩ := by decide!
  exact ⟨h, hittest_sphere_hit (vec 0 (10606602 / 10000000) 6) (B32.ofRat (3 / 2))
    (vec (5 / 10) (5 / 10) (5 / 10)) (B32.ofRat (5 / 10)) (vec 0 0 0) (vec 0 0 1) _ h⟩

/-- C19, counterexample, in two parts, for spheres of radius `1.5 > 0`.  For the
sphere about the origin and the ray from `(0, 0, -1e8)` with the unit direction
`(0, 0, 1)`, `hittest` reports a hit at the distance `1e8`; the reported point is
the centre, at the exact distance `0` and not `1.5` from it, and the three
components of the reported normal are NaN.  For the sphere about `(1e30, 0, 0)` and
the ray from the origin with the unit direction `(1, 0, 0)`, the squares overflow and
`hittest` reports a hit whose distance is NaN, so that `0 <= dist` is false. -/
theorem hittest_sphere_hit_at_centre :
    B32.lt (B32.ofRat 0) (B32.ofRat (3 / 2)) = true ∧
      (exact_dist_sq (vec 0 0 1) (vec 0 0 0) = 1 ∧
        hittest (grey_sphere 0 0 0 (3 / 2)) (vec 0 0 (-100000000)) (vec 0 0 1)
          = some ⟨B32.ofRat 100000000, vec 0 0 0, ⟨B32.nan, B32.nan, B32.nan⟩⟩ ∧
        exact_dist_sq (vec 0 0 0) (vec 0 0 0) ≠ (3 / 2) ^ 2) ∧
      (exact_dist_sq (vec 1 0 0) (vec 0 0 0) = 1 ∧
        hittest (grey_sphere 1000000000000000000000000000000 0 0 (3 / 2)) (vec 0 0 0)
            (vec 1 0 0)
          = some ⟨B32.nan, ⟨B32.nan, B32.nan, B32.nan⟩, ⟨B32.nan, B32.nan, B32.nan⟩⟩ ∧
        B32.le (B32.ofRat 0) B32.nan = false) := by
  decide!

/-- The ray from the origin toward the centre `(3, -1, 6)` of the first sphere of the
program's scene (radius `1.5`), with the direction `normalize(center - origin)` as
computed: `hittest` reports a hit whose normal is not that direction, and whose
point is not at the exact distance `1.5` from the centre. -/
theorem hittest_head_on_rounded :
    ∃ h, hittest (grey_sphere 3 (-1) 6 (3 / 2)) (vec 0 0 0)
        (normalize (vsub (vec 3 (-1) 6) (vec 0 0 0))) = some h ∧
      h.normal ≠ normalize (vsub (vec 3 (-1) 6) (vec 0 0 0)) ∧
      exact_dist_sq h.point (vec 3 (-1) 6) ≠ (3 / 2) ^ 2 ∧
      exact_dist_sq (normalize (vsub (vec 3 (-1) 6) (vec 0 0 0))) (vec 0 0 0) ≠ 1 := by
  decide!

/-- The direction `(0, 0, 1)` reflected at the normal that `hittest` reports for the
sphere of radius `1.5` about `(0, 1.0606602, 6)` is not a unit vector, and neither is
`LIGHT_DIR`: the exact squares of their lengths are not `1`. -/
theorem reflect_not_unit :
    reflect (vec 0 0 1) (vec 0 0.7071067690849304 0.70710688829422)
        = vec 0 (-1.0000001192092896) (-3.5762786865234375e-07) ∧
      exact_dist_sq (vec 0 0 1) (vec 0 0 0) = 1 ∧
      exact_dist_sq (vec 0 (-1.0000001192092896) (-3.5762786865234375e-07)) (vec 0 0 0) ≠ 1 ∧
      exact_dist_sq LIGHT_DIR (vec 0 0 0) ≠ 1 := by
  decide!

end Binary32

end PathTracer
